import Mathlib

/-!
Verification development for the nodemailer-smtp-pool sources.

The pool (lib/smtp-pool.js, here `src/src/pool-resource.js` lines 152-560) is
embedded as an executable labelled transition system: every handler of the
JavaScript source (`SMTPPool.prototype.send`, `close`, `_processMessages`,
`_createConnection`, `_checkRateLimit`, `_clearRateLimit`,
`PoolResource.prototype.send`, the `connect` resolution handlers and the
`error` / `available` event wiring) is transcribed as a pure state function,
and the asynchronous callbacks of the collaborating SMTP connection are the
labels of the transition system.  JavaScript truthiness is modelled
explicitly where the source relies on it (`checkpoint` uses the value `0` for
the JS `false` sentinel, `rateLimit` uses `Option` for an unset/falsy value,
and the stale `setTimeout` handle left behind by `clearTimeout` is kept as a
separate field from the liveness of the timer).

The options constructor (lines 173-206) is embedded over an explicit object
store so that the mutation footprint of `clone` can be stated.
-/

namespace SmtpPool

/-- Phase of the single asynchronous continuation a pool resource may be
waiting on: `idle` (no pending connection callback), `connecting i`
(`PoolResource.prototype.connect` was started for submission `i`), or
`sending i` (`this.connection.send` was started for submission `i`). -/
inductive Phase
  | idle
  | connecting (i : Nat)
  | sending (i : Nat)
deriving DecidableEq

/-- One pool resource (`PoolResource`, lines 430-441): its id, message
counter, availability flag, connection status, pending continuation, the
per-send one-shot error listener installed by `_processMessages` (line 310),
and whether the once-only pool level error handler installed in
`_createConnection` (line 354) is still armed. -/
structure Resource where
  rid : Nat
  messages : Nat
  available : Bool
  connected : Bool
  phase : Phase
  errListener : Option Nat
  poolErrArmed : Bool
deriving DecidableEq

/-- The pool options the transition system reads: `maxConnections`,
`maxMessages` and `rateLimit` (`none` models an unset or falsy
`options.rateLimit`). -/
structure Opts where
  maxConnections : Nat
  maxMessages : Nat
  rateLimit : Option Nat
deriving DecidableEq

/-- The `_rateLimit` record (lines 196-201).  `checkpoint = 0` models the JS
`false` sentinel (line 200 initialises it to `false`, line 415 resets it to
`false`, and the code only ever compares it numerically, coercing `false` to
`0`).  `timeoutHandle` is the stored `setTimeout` handle (its value is the
armed duration); `timerLive` records whether that timer will still fire:
`close` (line 241) calls `clearTimeout` without nulling the field, so the
stale truthy handle must be kept separate from the timer's liveness. -/
structure RateLimitState where
  counter : Nat
  timeoutHandle : Option Int
  timerLive : Bool
  waiting : List Nat
  checkpoint : Int
deriving DecidableEq

/-- Full pool state.  `queue` holds submission indices; `resources` is the
heap of every resource ever created; `conns` is `this._connections` (a list
of resource ids, in order); `immediates` is the queue of continuations
scheduled with `setImmediate` by `_clearRateLimit` (line 420), as resource
ids; `pendingRetry` counts `setTimeout(this._processMessages, 100)` tasks
scheduled by the pool error handler (line 373); `callLog` records every
invocation of a user callback (submission index, error flag) after the
single-run guard of `SMTPPool.prototype.send` (lines 219-227), and
`routeLog` records every invocation of the guarded `element.callback`
itself, before the guard. -/
structure PoolState where
  opts : Opts
  closed : Bool
  queue : List Nat
  resources : List Resource
  conns : List Nat
  connectionCounter : Nat
  nextIdx : Nat
  rl : RateLimitState
  immediates : List Nat
  pendingRetry : Nat
  callLog : List (Nat × Bool)
  routeLog : List (Nat × Bool)
deriving DecidableEq

/-- Look up a resource by id (`this._connections[i] === connection` style
identity is replaced by the id). -/
def getRes (s : PoolState) (rid : Nat) : Option Resource :=
  s.resources.find? (fun r => r.rid == rid)

/-- Update the resource with the given id. -/
def setRes (s : PoolState) (rid : Nat) (f : Resource → Resource) : PoolState :=
  { s with resources := s.resources.map (fun r => if r.rid = rid then f r else r) }

/-- Number of entries of a log that belong to submission `i`. -/
def countFor (log : List (Nat × Bool)) (i : Nat) : Nat :=
  (log.filter (fun e => e.1 == i)).length

/-- One invocation of `element.callback` (the wrapper pushed by
`SMTPPool.prototype.send`, lines 217-228): the invocation itself is recorded
in `routeLog`; the guarded user callback is recorded in `callLog` only if it
has not run before (`if (called) return;`). -/
def invokeCb (i : Nat) (isErr : Bool) (s : PoolState) : PoolState :=
  let s := { s with routeLog := s.routeLog ++ [(i, isErr)] }
  if countFor s.callLog i = 0 then { s with callLog := s.callLog ++ [(i, isErr)] } else s

/-- Availability test used by `close` (line 245) and `_processMessages`
(line 279). -/
def isAvailable (s : PoolState) (rid : Nat) : Bool :=
  match getRes s rid with
  | some r => r.available
  | none => false

/-- `SMTPPool.prototype.close` (lines 236-264): set `_closed`, clear the
rate-limit timer (the handle field is left stale, matching line 241), and
remove every available connection from `_connections` (closing its
underlying SMTP connection, which changes no modelled resource field:
`PoolResource.prototype.close`, lines 556-560, only closes the
collaborator). -/
def closeP (s : PoolState) : PoolState :=
  let s := { s with closed := true, rl := { s.rl with timerLive := false } }
  { s with conns := s.conns.filter (fun rid => !(isAvailable s rid)) }

/-- `PoolResource.prototype.send` entry (lines 512-521): if the resource is
not connected it starts `connect` (resolved later by a `connectDone` label),
otherwise it hands the mail to `this.connection.send` (resolved later by a
`sendDone` label). -/
def resourceSendStart (rid i : Nat) (s : PoolState) : PoolState :=
  setRes s rid (fun r =>
    { r with phase := if r.connected then .sending i else .connecting i })

/-- The rate-limit charge taken at dispatch time (lines 303-308):
`counter++`, and `checkpoint = Date.now()` only if `checkpoint` is falsy. -/
def rateCharge (now : Int) (s : PoolState) : PoolState :=
  if s.opts.rateLimit.isSome then
    { s with rl := { s.rl with
                     counter := s.rl.counter + 1
                     checkpoint := if s.rl.checkpoint = 0 then now else s.rl.checkpoint } }
  else s

/-- `_createConnection` (lines 320-380): allocate a fresh `PoolResource`
with `id = ++this._connectionCounter`, its pool level once-only error
handler armed, and push it onto `_connections`.  Returns the new state and
the new id. -/
def createConnection (s : PoolState) : PoolState × Nat :=
  let rid := s.connectionCounter + 1
  let r : Resource :=
    { rid := rid
      messages := 0
      available := true
      connected := false
      phase := .idle
      errListener := none
      poolErrArmed := true }
  ({ s with
     connectionCounter := rid
     resources := s.resources ++ [r]
     conns := s.conns ++ [rid] }, rid)

/-- The dispatch tail of `_processMessages` (lines 293-314): dequeue the
head submission, mark the chosen resource unavailable, take the rate-limit
charge, install the per-send one-shot error listener and start the
resource's `send`. -/
def dispatchTo (now : Int) (rid i : Nat) (s : PoolState) : PoolState :=
  let s := setRes s rid (fun r => { r with available := false })
  let s := rateCharge now s
  let s := setRes s rid (fun r => { r with errListener := some i })
  resourceSendStart rid i s

/-- `_processMessages` (lines 270-315): return when the queue is empty or
the pool is closed; otherwise pick the first available connection, or create
one while below `maxConnections`, or give up; then dispatch the head of the
queue to it. -/
def processMessages (now : Int) (s : PoolState) : PoolState :=
  if s.queue.isEmpty || s.closed then s
  else
    match s.queue with
    | [] => s
    | i :: rest =>
      match s.conns.find? (fun rid => isAvailable s rid) with
      | some rid => dispatchTo now rid i { s with queue := rest }
      | none =>
        if s.conns.length < s.opts.maxConnections then
          let p := createConnection s
          dispatchTo now p.2 i { p.1 with queue := rest }
        else s

/-- The pool's `available` handler (lines 336-351): if the pool is closed,
re-run `close` (which removes the now-available resource), otherwise run the
dispatch loop. -/
def onAvailable (now : Int) (s : PoolState) : PoolState :=
  if s.closed then closeP s else processMessages now s

/-- The re-admission continuation handed to `_checkRateLimit` (lines
545-548): `this.available = true; this.emit('available')`. -/
def contAvailable (rid : Nat) (now : Int) (s : PoolState) : PoolState :=
  onAvailable now (setRes s rid (fun r => { r with available := true }))

/-- `_clearRateLimit` (lines 411-422): cancel the timer and null its handle,
reset the counter, unset the checkpoint, and move every parked continuation
in FIFO order onto the `setImmediate` queue. -/
def clearRateLimit (s : PoolState) : PoolState :=
  { s with
    rl := { s.rl with
            timerLive := false
            timeoutHandle := none
            counter := 0
            checkpoint := 0
            waiting := [] }
    immediates := s.immediates ++ s.rl.waiting }

/-- `_checkRateLimit` (lines 387-406) applied to the re-admission
continuation of resource `rid`: run it at once when `rateLimit` is unset or
the counter is below the limit; otherwise park it, and either clear the
window immediately (`checkpoint <= now - 1000`) or, when the handle field is
falsy, arm one timer for `1000 - (now - checkpoint)` and move the checkpoint
to `now`. -/
def checkRateLimit (now : Int) (rid : Nat) (s : PoolState) : PoolState :=
  match s.opts.rateLimit with
  | none => contAvailable rid now s
  | some limit =>
    if s.rl.counter < limit then contAvailable rid now s
    else
      let s := { s with rl := { s.rl with waiting := s.rl.waiting ++ [rid] } }
      if s.rl.checkpoint ≤ now - 1000 then clearRateLimit s
      else if s.rl.timeoutHandle.isNone then
        { s with rl := { s.rl with
                         timeoutHandle := some (1000 - (now - s.rl.checkpoint))
                         timerLive := true
                         checkpoint := now } }
      else s

/-- The pool level once-only error handler (lines 354-375): remove the
erroneous resource from `_connections` (first occurrence, as the
find-splice-break loop does), then either re-run `close` or schedule a
deferred `_processMessages` after ~100 ms. -/
def poolOnError (rid : Nat) (s : PoolState) : PoolState :=
  let s := { s with conns := s.conns.erase rid }
  if s.closed then closeP s else { s with pendingRetry := s.pendingRetry + 1 }

/-- `this.emit('error', err)` on a resource: listeners fire in registration
order, each removed before it runs because both were installed with `once` —
the pool handler from `_createConnection` first, then the per-send
`element.callback` installed by `_processMessages`. -/
def emitError (rid : Nat) (s : PoolState) : PoolState :=
  match getRes s rid with
  | none => s
  | some r =>
    let s1 :=
      if r.poolErrArmed then
        poolOnError rid (setRes s rid (fun x => { x with poolErrArmed := false }))
      else s
    match r.errListener with
    | some i => invokeCb i true (setRes s1 rid (fun x => { x with errListener := none }))
    | none => s1

/-- The send-completion wrapper of `_processMessages` (lines 311-314):
detach the per-send error listener, then invoke `element.callback`. -/
def wrapperCb (rid i : Nat) (isErr : Bool) (s : PoolState) : PoolState :=
  invokeCb i isErr (setRes s rid (fun r => { r with errListener := none }))

/-- The `this.connection.send` completion callback of
`PoolResource.prototype.send` (lines 523-551): `this.messages++`; on error
close the connection, emit the resource error and call the wrapper with the
error; on success call the wrapper with the info, then either emit the
`Resource exhausted` error (`messages >= maxMessages`) or pass the
re-admission continuation through the rate limiter. -/
def onSendDone (rid i : Nat) (ok : Bool) (now : Int) (s : PoolState) : PoolState :=
  let s := setRes s rid (fun r => { r with messages := r.messages + 1, phase := .idle })
  if ok then
    let s := wrapperCb rid i false s
    match getRes s rid with
    | some r =>
      if s.opts.maxMessages ≤ r.messages then emitError rid s
      else checkRateLimit now rid s
    | none => s
  else
    wrapperCb rid i true (emitError rid s)

/-- Outcome of a `PoolResource.prototype.connect` attempt: success of
connect plus login (`ok`), a connect or login error (`err`, lines 459-466
and 489-493: emit the resource error, then call back with the error), or the
connection's `close` event firing first (`closedEvt`, lines 468-475: emit a
synthetic `Connection was closed` error, then call back with no error, which
makes `PoolResource.prototype.send` re-enter and start `connect` again). -/
inductive ConnOutcome
  | ok
  | err
  | closedEvt
deriving DecidableEq

/-- Resolution of the `connect` started for submission `i` on resource
`rid`, as described at `ConnOutcome`. -/
def onConnectDone (rid i : Nat) (o : ConnOutcome) (s : PoolState) : PoolState :=
  match o with
  | .ok => setRes s rid (fun r => { r with connected := true, phase := .sending i })
  | .err =>
    let s := setRes s rid (fun r => { r with phase := .idle })
    wrapperCb rid i true (emitError rid s)
  | .closedEvt => resourceSendStart rid i (emitError rid s)

/-- Labels of the transition system: a user `send`, a user `close`, the
asynchronous resolutions of `connect` and `connection.send`, a spontaneous
error or close of an established SMTP connection (routed through the
resource's `error` event by the handlers installed in `connect`), the
rate-limit timer, a `setImmediate` continuation, and a deferred
`_processMessages` retry.  Labels that read `Date.now()` carry it as
`now`. -/
inductive Ev
  | send (now : Int)
  | close
  | connectDone (rid : Nat) (o : ConnOutcome)
  | sendDone (rid : Nat) (ok : Bool) (now : Int)
  | connError (rid : Nat)
  | timerFire
  | immediateFire (now : Int)
  | retryFire (now : Int)
deriving DecidableEq

/-- One transition.  Each label is a no-op unless the state it resolves is
actually pending (e.g. `sendDone` requires the resource to be in `sending`
phase). -/
def step (e : Ev) (s : PoolState) : PoolState :=
  match e with
  | .send now =>
    processMessages now { s with queue := s.queue ++ [s.nextIdx], nextIdx := s.nextIdx + 1 }
  | .close => closeP s
  | .connectDone rid o =>
    match getRes s rid with
    | some r =>
      match r.phase with
      | .connecting i => onConnectDone rid i o s
      | _ => s
    | none => s
  | .sendDone rid ok now =>
    match getRes s rid with
    | some r =>
      match r.phase with
      | .sending i => onSendDone rid i ok now s
      | _ => s
    | none => s
  | .connError rid =>
    match getRes s rid with
    | some r => if r.connected then emitError rid s else s
    | none => s
  | .timerFire => if s.rl.timerLive then clearRateLimit s else s
  | .immediateFire now =>
    match s.immediates with
    | rid :: rest => contAvailable rid now { s with immediates := rest }
    | [] => s
  | .retryFire now =>
    if s.pendingRetry > 0 then processMessages now { s with pendingRetry := s.pendingRetry - 1 }
    else s

/-- Pool state produced by the constructor (lines 196-205) for the given
options. -/
def initPool (o : Opts) : PoolState :=
  { opts := o
    closed := false
    queue := []
    resources := []
    conns := []
    connectionCounter := 0
    nextIdx := 0
    rl := { counter := 0, timeoutHandle := none, timerLive := false, waiting := [], checkpoint := 0 }
    immediates := []
    pendingRetry := 0
    callLog := []
    routeLog := [] }

/-- Run a list of labels from a state. -/
def run (evs : List Ev) (s : PoolState) : PoolState :=
  evs.foldl (fun s e => step e s) s

/-- Submission `i` can never again reach a user callback from state `s`. -/
def NeverFires (s : PoolState) (i : Nat) : Prop :=
  ∀ evs, countFor (run evs s).callLog i = countFor s.callLog i

/-- A resource references submission `i` when `i` is its pending
continuation or the target of its per-send error listener. -/
def refsIdx (r : Resource) (i : Nat) : Prop :=
  r.phase = .connecting i ∨ r.phase = .sending i ∨ r.errListener = some i

instance (r : Resource) (i : Nat) : Decidable (refsIdx r i) := by
  unfold refsIdx; infer_instance

/-- Submission `i` is retired: its index is in the past, it is not queued
and no resource references it. -/
def Retired (s : PoolState) (i : Nat) : Prop :=
  i < s.nextIdx ∧ i ∉ s.queue ∧ ∀ r ∈ s.resources, ¬ refsIdx r i

/-- Submission `i` is stuck in a closed pool: the pool is closed, `i` is
still queued, its index is in the past and no resource references it. -/
def StuckQueued (s : PoolState) (i : Nat) : Prop :=
  s.closed = true ∧ i ∈ s.queue ∧ i < s.nextIdx ∧ ∀ r ∈ s.resources, ¬ refsIdx r i

/-- Every user callback fires at most once: the single-run guard of
`SMTPPool.prototype.send`. -/
def CallsLe (s : PoolState) : Prop := ∀ i, countFor s.callLog i ≤ 1

/-- No resource references submission `i`. -/
def Unref (i : Nat) (s : PoolState) : Prop := ∀ r ∈ s.resources, ¬ refsIdx r i

/-- Resource `rid` is in flight for submission `i` with the per-send error
listener still armed and the submission not yet reported (the normal state
between dispatch and resolution). -/
def InFlightSending (s : PoolState) (rid i : Nat) : Prop :=
  ∃ r, getRes s rid = some r ∧ r.phase = .sending i ∧ r.errListener = some i ∧
    countFor s.callLog i = 0

/-- As `InFlightSending`, but the resource is still connecting. -/
def InFlightConnecting (s : PoolState) (rid i : Nat) : Prop :=
  ∃ r, getRes s rid = some r ∧ r.phase = .connecting i ∧ r.errListener = some i ∧
    countFor s.callLog i = 0

/-- Inductive invariant for the per-resource message bound: positive budget,
resource ids bounded by the counter and duplicate free, `_connections`
entries bounded, duplicate free, armed and strictly below the budget, every
in-flight resource strictly below the budget, and every resource ever
created within the budget. -/
structure C5Inv (s : PoolState) : Prop where
  posMax : 0 < s.opts.maxMessages
  ridLe : ∀ r ∈ s.resources, r.rid ≤ s.connectionCounter
  ridNodup : (s.resources.map Resource.rid).Nodup
  connLe : ∀ rid ∈ s.conns, rid ≤ s.connectionCounter
  connNodup : s.conns.Nodup
  connArmed : ∀ rid ∈ s.conns, ∀ r ∈ s.resources, r.rid = rid → r.poolErrArmed = true
  connMsg : ∀ rid ∈ s.conns, ∀ r ∈ s.resources, r.rid = rid →
    r.messages < s.opts.maxMessages
  flightMsg : ∀ r ∈ s.resources, ∀ i,
    (r.phase = .connecting i ∨ r.phase = .sending i) → r.messages < s.opts.maxMessages
  allMsg : ∀ r ∈ s.resources, r.messages ≤ s.opts.maxMessages

/-- Weakening of `C5Inv` used across the resource error handler: the strict
message bound is only known for `_connections` entries other than `rid` (the
resource whose error is being emitted). -/
structure C5Pre (rid : Nat) (s : PoolState) : Prop where
  posMax : 0 < s.opts.maxMessages
  ridLe : ∀ r ∈ s.resources, r.rid ≤ s.connectionCounter
  ridNodup : (s.resources.map Resource.rid).Nodup
  connLe : ∀ rid0 ∈ s.conns, rid0 ≤ s.connectionCounter
  connNodup : s.conns.Nodup
  connArmed : ∀ rid0 ∈ s.conns, ∀ r ∈ s.resources, r.rid = rid0 → r.poolErrArmed = true
  connMsgNe : ∀ rid0 ∈ s.conns, rid0 ≠ rid → ∀ r ∈ s.resources, r.rid = rid0 →
    r.messages < s.opts.maxMessages
  flightMsg : ∀ r ∈ s.resources, ∀ i,
    (r.phase = .connecting i ∨ r.phase = .sending i) → r.messages < s.opts.maxMessages
  allMsg : ∀ r ∈ s.resources, r.messages ≤ s.opts.maxMessages

/-- Every resource of `t` has a counterpart in `s` with the same id and
message count (state transforms that touch neither ids nor counters). -/
def MsgShape (s t : PoolState) : Prop :=
  ∀ r' ∈ t.resources, ∃ r ∈ s.resources, r'.rid = r.rid ∧ r'.messages = r.messages

/-- The per-resource message bound, as one decidable check: every resource
ever created satisfies `messages ≤ maxMessages`, and every resource still in
`_connections` satisfies the strict bound `messages < maxMessages` (so a
resource that has reached the cap has been removed from the pool). -/
def messagesBounded (s : PoolState) : Bool :=
  s.resources.all (fun r => r.messages ≤ s.opts.maxMessages) &&
  s.conns.all (fun rid =>
    (s.resources.filter (fun r => r.rid == rid)).all
      (fun r => r.messages < s.opts.maxMessages))

/-! ### Constructor model over an explicit object store -/

/-- JS primitive value, as stored in an options mapping. -/
inductive JVal
  | vnum (n : Int)
  | vstr (s : String)
  | vbool (b : Bool)
deriving DecidableEq

/-- JS truthiness of a primitive value. -/
def JVal.truthy : JVal → Bool
  | .vnum n => n ≠ 0
  | .vstr s => s ≠ ""
  | .vbool b => b

/-- A JS object as an ordered association list. -/
abbrev JObj := List (String × JVal)

/-- Property read (`o[k]`): first binding, if any. -/
def objGet (o : JObj) (k : String) : Option JVal :=
  (o.find? (fun kv => kv.1 == k)).map (fun kv => kv.2)

/-- The `k in o` test: presence of the key, regardless of truthiness. -/
def objHas (o : JObj) (k : String) : Bool :=
  (o.find? (fun kv => kv.1 == k)).isSome

/-- Property write (`o[k] = v`): overwrite every binding of the key in
place, or append a fresh binding. -/
def objSet (o : JObj) (k : String) (v : JVal) : JObj :=
  if objHas o k then o.map (fun kv => if kv.1 = k then (k, v) else kv)
  else o ++ [(k, v)]

/-- JS `x || d` over an optional property value. -/
def jsOr (x : Option JVal) (d : JVal) : JVal :=
  match x with
  | some v => if v.truthy then v else d
  | none => d

/-- Heap of JS objects; references are indices. -/
abbrev Store := List JObj

/-- Dereference (missing references read as an empty object). -/
def storeGet (st : Store) (ref : Nat) : JObj :=
  st.getD ref []

/-- Heap update at a reference. -/
def storeSet (st : Store) (ref : Nat) (o : JObj) : Store :=
  st.set ref o

/-- `clone(options)` (line 178): allocate a fresh object holding a copy of
the referenced one (the options mappings modelled here are flat, so the copy
is also a deep clone). -/
def cloneRef (st : Store) (ref : Nat) : Store × Nat :=
  (st ++ [storeGet st ref], st.length)

/-- Allocation of a fresh empty object (the `|| \x7b\x7d` branch of
line 178 for a missing `options` argument). -/
def allocEmpty (st : Store) : Store × Nat :=
  (st ++ [[]], st.length)

/-- The well-known merge loop (lines 183-187): for each binding of the
well-known entry, in order, set the key on the options only when the key is
not already present. -/
def mergeWellknown (o : JObj) (hostData : JObj) : JObj :=
  hostData.foldl (fun acc kv => if objHas acc kv.1 then acc else acc ++ [kv]) o

/-- The option-processing prefix of the `SMTPPool` constructor (lines
178-188) over the store: `this.options = options && clone(options) || \x7b\x7d`,
the `maxConnections`/`maxMessages` defaults via `||`, and the well-known
service merge (`wk` is the external `wellknown` lookup; it is consulted only
when `options.service` is a truthy string, and only a truthy result is
used).  Returns the updated store and the reference held in
`this.options`. -/
def smtpPoolCtorOptions (wk : String → Option JObj) (st : Store)
    (optsRef : Option Nat) : Store × Nat :=
  let p := match optsRef with
    | some ref => cloneRef st ref
    | none => allocEmpty st
  let st := p.1
  let oref := p.2
  let st := storeSet st oref
    (objSet (storeGet st oref) "maxConnections"
      (jsOr (objGet (storeGet st oref) "maxConnections") (.vnum 5)))
  let st := storeSet st oref
    (objSet (storeGet st oref) "maxMessages"
      (jsOr (objGet (storeGet st oref) "maxMessages") (.vnum 100)))
  let st :=
    match objGet (storeGet st oref) "service" with
    | some (.vstr name) =>
      if JVal.truthy (.vstr name) then
        match wk name with
        | some hostData => storeSet st oref (mergeWellknown (storeGet st oref) hostData)
        | none => st
      else st
    | _ => st
  (st, oref)

/-! ### The `verify` operation, absent from the provided sources -/

/-- Observable outcome of one `verify` call. -/
structure VerifyRun where
  pool : PoolState
  cbErr : Bool
  cbOk : Bool
  resourceClosed : Bool
deriving DecidableEq

/-- Modelled from the spec: `SMTPPool.prototype.verify` is missing from the
provided sources (only the tests exercise it).  Per the spec it allocates a
one-shot resource, runs connect plus login, invokes `cb(null, true)` on
success or `cb(err)` on failure, then closes that resource on both paths,
and does not affect the pool's queue, resources or rate-limit state.  The
connect-plus-login outcome is the `ok` argument. -/
def verify (s : PoolState) (ok : Bool) : VerifyRun :=
  if ok then
    { pool := s, cbErr := false, cbOk := true, resourceClosed := true }
  else
    { pool := s, cbErr := true, cbOk := false, resourceClosed := true }

/-! ### Concrete states used by witnesses and counterexamples -/

/-- Default-like options with a single connection slot. -/
def optsOne : Opts := { maxConnections := 1, maxMessages := 100, rateLimit := none }

/-- Options with a message budget of one, so the first successful send
exhausts its resource. -/
def optsMm1 : Opts := { maxConnections := 1, maxMessages := 1, rateLimit := none }

/-- Trace: two submissions on a one-slot pool, `close` while the second is
still queued, then the first connects and completes successfully. -/
def c1State : PoolState :=
  run [.send 0, .send 0, .close, .connectDone 1 .ok, .sendDone 1 true 0] (initPool optsOne)

/-- Trace: two submissions on a one-slot pool, then `close` while the second
is still queued and the first is still connecting. -/
def c2State : PoolState :=
  run [.send 0, .send 0, .close] (initPool optsOne)

/-- Trace: one submission dispatched and connected on a pool with
`maxMessages = 1`, its send still in flight. -/
def c3State : PoolState :=
  run [.send 0, .connectDone 1 .ok] (initPool optsMm1)

/-- Trace: one submission dispatched, its `connect` still pending. -/
def c1cState : PoolState :=
  run [.send 0] (initPool optsOne)

/-- The single resource of `c3State`: connected, one send in flight for
submission 0, per-send error listener armed. -/
def c3Res : Resource :=
  { rid := 1, messages := 0, available := false, connected := true,
    phase := .sending 0, errListener := some 0, poolErrArmed := true }

/-- The single resource of `c1cState`: still connecting for submission 0. -/
def c1cRes : Resource :=
  { rid := 1, messages := 0, available := false, connected := false,
    phase := .connecting 0, errListener := some 0, poolErrArmed := true }

/-- Options with a rate limit of two messages per second. -/
def optsRL : Opts := { maxConnections := 5, maxMessages := 100, rateLimit := some 2 }

/-- Rate-limited pool with one admission taken in the current window. -/
def rlBelow : PoolState :=
  { initPool optsRL with
    rl := { counter := 1, timeoutHandle := none, timerLive := false,
            waiting := [], checkpoint := 500 } }

/-- Rate-limited pool at the limit with a stale window (`checkpoint` more
than a second before the sampled `now = 2000`). -/
def rlClear : PoolState :=
  { initPool optsRL with
    rl := { counter := 2, timeoutHandle := none, timerLive := false,
            waiting := [7], checkpoint := 500 } }

/-- Rate-limited pool at the limit inside a fresh window and without an
armed timer. -/
def rlArm : PoolState :=
  { initPool optsRL with
    rl := { counter := 2, timeoutHandle := none, timerLive := false,
            waiting := [], checkpoint := 1500 } }

/-- Rate-limited pool at the limit inside a fresh window with a timer
already armed. -/
def rlWait : PoolState :=
  { initPool optsRL with
    rl := { counter := 2, timeoutHandle := some 700, timerLive := true,
            waiting := [3], checkpoint := 1500 } }

/-- Pool with one parked continuation already moved to the `setImmediate`
queue. -/
def rlImm : PoolState :=
  { initPool optsRL with immediates := [1, 2] }

/-- A concrete well-known lookup table for the constructor claims. -/
def wkTest : String → Option JObj := fun name =>
  if name = "gmail" then
    some [("host", JVal.vstr "smtp.gmail.com"), ("port", JVal.vnum 465),
      ("secure", JVal.vbool true)]
  else none

/-- One caller options object: a service name plus an explicit port. -/
def stTest : Store :=
  [[("service", JVal.vstr "gmail"), ("port", JVal.vnum 2525)]]

/-- The well-known entry `wkTest` returns for `gmail`. -/
def hdTest : JObj :=
  [("host", JVal.vstr "smtp.gmail.com"), ("port", JVal.vnum 465),
    ("secure", JVal.vbool true)]

/-! ### Frame lemmas: fields each helper leaves unchanged -/

variable {s : PoolState}

@[simp] theorem setRes_opts (rid : Nat) (f : Resource → Resource) :
    (setRes s rid f).opts = s.opts := rfl

@[simp] theorem setRes_closed (rid : Nat) (f : Resource → Resource) :
    (setRes s rid f).closed = s.closed := rfl

@[simp] theorem setRes_queue (rid : Nat) (f : Resource → Resource) :
    (setRes s rid f).queue = s.queue := rfl

@[simp] theorem setRes_conns (rid : Nat) (f : Resource → Resource) :
    (setRes s rid f).conns = s.conns := rfl

@[simp] theorem setRes_counter (rid : Nat) (f : Resource → Resource) :
    (setRes s rid f).connectionCounter = s.connectionCounter := rfl

@[simp] theorem setRes_nextIdx (rid : Nat) (f : Resource → Resource) :
    (setRes s rid f).nextIdx = s.nextIdx := rfl

@[simp] theorem setRes_callLog (rid : Nat) (f : Resource → Resource) :
    (setRes s rid f).callLog = s.callLog := rfl

@[simp] theorem setRes_routeLog (rid : Nat) (f : Resource → Resource) :
    (setRes s rid f).routeLog = s.routeLog := rfl

@[simp] theorem setRes_resources (rid : Nat) (f : Resource → Resource) :
    (setRes s rid f).resources
      = s.resources.map (fun r => if r.rid = rid then f r else r) := rfl

@[simp] theorem invokeCb_opts (i : Nat) (b : Bool) :
    (invokeCb i b s).opts = s.opts := by
  unfold invokeCb; dsimp only; split <;> rfl

@[simp] theorem invokeCb_closed (i : Nat) (b : Bool) :
    (invokeCb i b s).closed = s.closed := by
  unfold invokeCb; dsimp only; split <;> rfl

@[simp] theorem invokeCb_queue (i : Nat) (b : Bool) :
    (invokeCb i b s).queue = s.queue := by
  unfold invokeCb; dsimp only; split <;> rfl

@[simp] theorem invokeCb_resources (i : Nat) (b : Bool) :
    (invokeCb i b s).resources = s.resources := by
  unfold invokeCb; dsimp only; split <;> rfl

@[simp] theorem invokeCb_conns (i : Nat) (b : Bool) :
    (invokeCb i b s).conns = s.conns := by
  unfold invokeCb; dsimp only; split <;> rfl

@[simp] theorem invokeCb_counter (i : Nat) (b : Bool) :
    (invokeCb i b s).connectionCounter = s.connectionCounter := by
  unfold invokeCb; dsimp only; split <;> rfl

@[simp] theorem invokeCb_nextIdx (i : Nat) (b : Bool) :
    (invokeCb i b s).nextIdx = s.nextIdx := by
  unfold invokeCb; dsimp only; split <;> rfl

@[simp] theorem setRes_pendingRetry (rid : Nat) (f : Resource → Resource) :
    (setRes s rid f).pendingRetry = s.pendingRetry := rfl

@[simp] theorem invokeCb_pendingRetry (i : Nat) (b : Bool) :
    (invokeCb i b s).pendingRetry = s.pendingRetry := by
  unfold invokeCb; dsimp only; split <;> rfl

@[simp] theorem invokeCb_routeLog (i : Nat) (b : Bool) :
    (invokeCb i b s).routeLog = s.routeLog ++ [(i, b)] := by
  unfold invokeCb; dsimp only; split <;> rfl

theorem invokeCb_callLog (i : Nat) (b : Bool) :
    (invokeCb i b s).callLog
      = if countFor s.callLog i = 0 then s.callLog ++ [(i, b)] else s.callLog := by
  unfold invokeCb; dsimp only; split <;> simp_all

@[simp] theorem closeP_opts : (closeP s).opts = s.opts := rfl

@[simp] theorem closeP_closed : (closeP s).closed = true := rfl

@[simp] theorem closeP_queue : (closeP s).queue = s.queue := rfl

@[simp] theorem closeP_resources : (closeP s).resources = s.resources := rfl

@[simp] theorem closeP_counter : (closeP s).connectionCounter = s.connectionCounter := rfl

@[simp] theorem closeP_nextIdx : (closeP s).nextIdx = s.nextIdx := rfl

@[simp] theorem closeP_callLog : (closeP s).callLog = s.callLog := rfl

@[simp] theorem closeP_routeLog : (closeP s).routeLog = s.routeLog := rfl

@[simp] theorem rateCharge_opts (now : Int) : (rateCharge now s).opts = s.opts := by
  unfold rateCharge; split <;> rfl

@[simp] theorem rateCharge_closed (now : Int) : (rateCharge now s).closed = s.closed := by
  unfold rateCharge; split <;> rfl

@[simp] theorem rateCharge_queue (now : Int) : (rateCharge now s).queue = s.queue := by
  unfold rateCharge; split <;> rfl

@[simp] theorem rateCharge_resources (now : Int) :
    (rateCharge now s).resources = s.resources := by
  unfold rateCharge; split <;> rfl

@[simp] theorem rateCharge_conns (now : Int) : (rateCharge now s).conns = s.conns := by
  unfold rateCharge; split <;> rfl

@[simp] theorem rateCharge_counter (now : Int) :
    (rateCharge now s).connectionCounter = s.connectionCounter := by
  unfold rateCharge; split <;> rfl

@[simp] theorem rateCharge_nextIdx (now : Int) : (rateCharge now s).nextIdx = s.nextIdx := by
  unfold rateCharge; split <;> rfl

@[simp] theorem rateCharge_callLog (now : Int) : (rateCharge now s).callLog = s.callLog := by
  unfold rateCharge; split <;> rfl

@[simp] theorem rateCharge_routeLog (now : Int) :
    (rateCharge now s).routeLog = s.routeLog := by
  unfold rateCharge; split <;> rfl

@[simp] theorem clearRateLimit_opts : (clearRateLimit s).opts = s.opts := rfl

@[simp] theorem clearRateLimit_closed : (clearRateLimit s).closed = s.closed := rfl

@[simp] theorem clearRateLimit_queue : (clearRateLimit s).queue = s.queue := rfl

@[simp] theorem clearRateLimit_resources :
    (clearRateLimit s).resources = s.resources := rfl

@[simp] theorem clearRateLimit_conns : (clearRateLimit s).conns = s.conns := rfl

@[simp] theorem clearRateLimit_counter :
    (clearRateLimit s).connectionCounter = s.connectionCounter := rfl

@[simp] theorem clearRateLimit_nextIdx : (clearRateLimit s).nextIdx = s.nextIdx := rfl

@[simp] theorem clearRateLimit_callLog : (clearRateLimit s).callLog = s.callLog := rfl

@[simp] theorem clearRateLimit_routeLog : (clearRateLimit s).routeLog = s.routeLog := rfl

@[simp] theorem createConnection_opts : (createConnection s).1.opts = s.opts := rfl

@[simp] theorem createConnection_closed : (createConnection s).1.closed = s.closed := rfl

@[simp] theorem createConnection_queue : (createConnection s).1.queue = s.queue := rfl

@[simp] theorem createConnection_nextIdx :
    (createConnection s).1.nextIdx = s.nextIdx := rfl

@[simp] theorem createConnection_callLog :
    (createConnection s).1.callLog = s.callLog := rfl

@[simp] theorem createConnection_routeLog :
    (createConnection s).1.routeLog = s.routeLog := rfl

@[simp] theorem resourceSendStart_opts (rid i : Nat) :
    (resourceSendStart rid i s).opts = s.opts := rfl

@[simp] theorem resourceSendStart_conns (rid i : Nat) :
    (resourceSendStart rid i s).conns = s.conns := rfl

@[simp] theorem resourceSendStart_counter (rid i : Nat) :
    (resourceSendStart rid i s).connectionCounter = s.connectionCounter := rfl

@[simp] theorem resourceSendStart_closed (rid i : Nat) :
    (resourceSendStart rid i s).closed = s.closed := rfl

@[simp] theorem resourceSendStart_queue (rid i : Nat) :
    (resourceSendStart rid i s).queue = s.queue := rfl

@[simp] theorem resourceSendStart_nextIdx (rid i : Nat) :
    (resourceSendStart rid i s).nextIdx = s.nextIdx := rfl

@[simp] theorem resourceSendStart_callLog (rid i : Nat) :
    (resourceSendStart rid i s).callLog = s.callLog := rfl

@[simp] theorem resourceSendStart_routeLog (rid i : Nat) :
    (resourceSendStart rid i s).routeLog = s.routeLog := rfl

@[simp] theorem dispatchTo_opts (now : Int) (rid i : Nat) :
    (dispatchTo now rid i s).opts = s.opts := by
  unfold dispatchTo resourceSendStart; simp

@[simp] theorem dispatchTo_closed (now : Int) (rid i : Nat) :
    (dispatchTo now rid i s).closed = s.closed := by
  unfold dispatchTo resourceSendStart; simp

@[simp] theorem dispatchTo_queue (now : Int) (rid i : Nat) :
    (dispatchTo now rid i s).queue = s.queue := by
  unfold dispatchTo resourceSendStart; simp

@[simp] theorem dispatchTo_nextIdx (now : Int) (rid i : Nat) :
    (dispatchTo now rid i s).nextIdx = s.nextIdx := by
  unfold dispatchTo resourceSendStart; simp

@[simp] theorem dispatchTo_callLog (now : Int) (rid i : Nat) :
    (dispatchTo now rid i s).callLog = s.callLog := by
  unfold dispatchTo resourceSendStart; simp

@[simp] theorem dispatchTo_routeLog (now : Int) (rid i : Nat) :
    (dispatchTo now rid i s).routeLog = s.routeLog := by
  unfold dispatchTo resourceSendStart; simp

@[simp] theorem poolOnError_opts (rid : Nat) : (poolOnError rid s).opts = s.opts := by
  unfold poolOnError; dsimp only; split <;> rfl

@[simp] theorem poolOnError_closed (rid : Nat) :
    (poolOnError rid s).closed = s.closed := by
  unfold poolOnError; dsimp only; split <;> simp_all

@[simp] theorem poolOnError_queue (rid : Nat) : (poolOnError rid s).queue = s.queue := by
  unfold poolOnError; dsimp only; split <;> rfl

@[simp] theorem poolOnError_resources (rid : Nat) :
    (poolOnError rid s).resources = s.resources := by
  unfold poolOnError; dsimp only; split <;> rfl

@[simp] theorem poolOnError_counter (rid : Nat) :
    (poolOnError rid s).connectionCounter = s.connectionCounter := by
  unfold poolOnError; dsimp only; split <;> rfl

@[simp] theorem poolOnError_nextIdx (rid : Nat) :
    (poolOnError rid s).nextIdx = s.nextIdx := by
  unfold poolOnError; dsimp only; split <;> rfl

@[simp] theorem poolOnError_callLog (rid : Nat) :
    (poolOnError rid s).callLog = s.callLog := by
  unfold poolOnError; dsimp only; split <;> rfl

@[simp] theorem poolOnError_routeLog (rid : Nat) :
    (poolOnError rid s).routeLog = s.routeLog := by
  unfold poolOnError; dsimp only; split <;> rfl

@[simp] theorem processMessages_opts (now : Int) :
    (processMessages now s).opts = s.opts := by
  unfold processMessages
  split
  · rfl
  · split
    · rfl
    · split
      · simp
      · split
        · simp
        · rfl

@[simp] theorem processMessages_closed (now : Int) :
    (processMessages now s).closed = s.closed := by
  unfold processMessages
  split
  · rfl
  · split
    · rfl
    · split
      · simp
      · split
        · simp
        · rfl

@[simp] theorem processMessages_nextIdx (now : Int) :
    (processMessages now s).nextIdx = s.nextIdx := by
  unfold processMessages
  split
  · rfl
  · split
    · rfl
    · split
      · simp
      · split
        · simp
        · rfl

@[simp] theorem processMessages_callLog (now : Int) :
    (processMessages now s).callLog = s.callLog := by
  unfold processMessages
  split
  · rfl
  · split
    · rfl
    · split
      · simp
      · split
        · simp
        · rfl

@[simp] theorem processMessages_routeLog (now : Int) :
    (processMessages now s).routeLog = s.routeLog := by
  unfold processMessages
  split
  · rfl
  · split
    · rfl
    · split
      · simp
      · split
        · simp
        · rfl

theorem processMessages_queue_cases (now : Int) :
    (processMessages now s).queue = s.queue ∨ (processMessages now s).queue = s.queue.tail := by
  unfold processMessages
  split
  · left; rfl
  · split
    · left; rfl
    · rename_i i rest hq
      split
      · right; simp [hq]
      · split
        · right; simp [hq]
        · left; rfl

theorem processMessages_of_closed (now : Int) (h : s.closed = true) :
    processMessages now s = s := by
  unfold processMessages
  split
  · rfl
  · rename_i hc
    simp [h] at hc

@[simp] theorem onAvailable_closed (now : Int) :
    (onAvailable now s).closed = s.closed := by
  unfold onAvailable; split <;> simp_all

@[simp] theorem onAvailable_nextIdx (now : Int) :
    (onAvailable now s).nextIdx = s.nextIdx := by
  unfold onAvailable; split <;> simp

@[simp] theorem onAvailable_opts (now : Int) :
    (onAvailable now s).opts = s.opts := by
  unfold onAvailable; split <;> simp

@[simp] theorem onAvailable_callLog (now : Int) :
    (onAvailable now s).callLog = s.callLog := by
  unfold onAvailable; split <;> simp

@[simp] theorem onAvailable_routeLog (now : Int) :
    (onAvailable now s).routeLog = s.routeLog := by
  unfold onAvailable; split <;> simp

theorem onAvailable_of_closed (now : Int) (h : s.closed = true) :
    onAvailable now s = closeP s := by
  unfold onAvailable; simp [h]

@[simp] theorem contAvailable_closed (rid : Nat) (now : Int) :
    (contAvailable rid now s).closed = s.closed := by
  unfold contAvailable; simp

@[simp] theorem contAvailable_nextIdx (rid : Nat) (now : Int) :
    (contAvailable rid now s).nextIdx = s.nextIdx := by
  unfold contAvailable; simp

@[simp] theorem contAvailable_opts (rid : Nat) (now : Int) :
    (contAvailable rid now s).opts = s.opts := by
  unfold contAvailable; simp

@[simp] theorem contAvailable_callLog (rid : Nat) (now : Int) :
    (contAvailable rid now s).callLog = s.callLog := by
  unfold contAvailable; simp

@[simp] theorem contAvailable_routeLog (rid : Nat) (now : Int) :
    (contAvailable rid now s).routeLog = s.routeLog := by
  unfold contAvailable; simp

@[simp] theorem checkRateLimit_closed (now : Int) (rid : Nat) :
    (checkRateLimit now rid s).closed = s.closed := by
  unfold checkRateLimit
  split
  · simp
  · split
    · simp
    · dsimp only
      split
      · simp
      · split <;> rfl

@[simp] theorem checkRateLimit_nextIdx (now : Int) (rid : Nat) :
    (checkRateLimit now rid s).nextIdx = s.nextIdx := by
  unfold checkRateLimit
  split
  · simp
  · split
    · simp
    · dsimp only
      split
      · simp
      · split <;> rfl

@[simp] theorem checkRateLimit_opts (now : Int) (rid : Nat) :
    (checkRateLimit now rid s).opts = s.opts := by
  unfold checkRateLimit
  split
  · simp
  · split
    · simp
    · dsimp only
      split
      · simp
      · split <;> rfl

@[simp] theorem checkRateLimit_callLog (now : Int) (rid : Nat) :
    (checkRateLimit now rid s).callLog = s.callLog := by
  unfold checkRateLimit
  split
  · simp
  · split
    · simp
    · dsimp only
      split
      · simp
      · split <;> rfl

@[simp] theorem checkRateLimit_routeLog (now : Int) (rid : Nat) :
    (checkRateLimit now rid s).routeLog = s.routeLog := by
  unfold checkRateLimit
  split
  · simp
  · split
    · simp
    · dsimp only
      split
      · simp
      · split <;> rfl

@[simp] theorem emitError_opts (rid : Nat) : (emitError rid s).opts = s.opts := by
  unfold emitError
  split
  · rfl
  · dsimp only
    split <;> split <;> simp

@[simp] theorem emitError_closed (rid : Nat) : (emitError rid s).closed = s.closed := by
  unfold emitError
  split
  · rfl
  · dsimp only
    split <;> split <;> simp

@[simp] theorem emitError_queue (rid : Nat) : (emitError rid s).queue = s.queue := by
  unfold emitError
  split
  · rfl
  · dsimp only
    split <;> split <;> simp

@[simp] theorem emitError_nextIdx (rid : Nat) :
    (emitError rid s).nextIdx = s.nextIdx := by
  unfold emitError
  split
  · rfl
  · dsimp only
    split <;> split <;> simp

@[simp] theorem emitError_counter (rid : Nat) :
    (emitError rid s).connectionCounter = s.connectionCounter := by
  unfold emitError
  split
  · rfl
  · dsimp only
    split <;> split <;> simp

@[simp] theorem wrapperCb_closed (rid i : Nat) (b : Bool) :
    (wrapperCb rid i b s).closed = s.closed := by
  unfold wrapperCb; simp

@[simp] theorem wrapperCb_queue (rid i : Nat) (b : Bool) :
    (wrapperCb rid i b s).queue = s.queue := by
  unfold wrapperCb; simp

@[simp] theorem wrapperCb_nextIdx (rid i : Nat) (b : Bool) :
    (wrapperCb rid i b s).nextIdx = s.nextIdx := by
  unfold wrapperCb; simp

@[simp] theorem wrapperCb_opts (rid i : Nat) (b : Bool) :
    (wrapperCb rid i b s).opts = s.opts := by
  unfold wrapperCb; simp

@[simp] theorem wrapperCb_conns (rid i : Nat) (b : Bool) :
    (wrapperCb rid i b s).conns = s.conns := by
  unfold wrapperCb; simp

@[simp] theorem onSendDone_closed (rid i : Nat) (ok : Bool) (now : Int) :
    (onSendDone rid i ok now s).closed = s.closed := by
  unfold onSendDone
  dsimp only
  split
  · split
    · split <;> simp
    · simp
  · simp

@[simp] theorem onSendDone_nextIdx (rid i : Nat) (ok : Bool) (now : Int) :
    (onSendDone rid i ok now s).nextIdx = s.nextIdx := by
  unfold onSendDone
  dsimp only
  split
  · split
    · split <;> simp
    · simp
  · simp

@[simp] theorem onSendDone_opts (rid i : Nat) (ok : Bool) (now : Int) :
    (onSendDone rid i ok now s).opts = s.opts := by
  unfold onSendDone
  dsimp only
  split
  · split
    · split <;> simp
    · simp
  · simp

@[simp] theorem onConnectDone_queue (rid i : Nat) (o : ConnOutcome) :
    (onConnectDone rid i o s).queue = s.queue := by
  unfold onConnectDone
  cases o <;> simp

@[simp] theorem onConnectDone_closed (rid i : Nat) (o : ConnOutcome) :
    (onConnectDone rid i o s).closed = s.closed := by
  unfold onConnectDone
  cases o <;> simp

@[simp] theorem onConnectDone_nextIdx (rid i : Nat) (o : ConnOutcome) :
    (onConnectDone rid i o s).nextIdx = s.nextIdx := by
  unfold onConnectDone
  cases o <;> simp

@[simp] theorem onConnectDone_opts (rid i : Nat) (o : ConnOutcome) :
    (onConnectDone rid i o s).opts = s.opts := by
  unfold onConnectDone
  cases o <;> simp

/-! ### Counting callback invocations -/

theorem countFor_append (log : List (Nat × Bool)) (e : Nat × Bool) (i : Nat) :
    countFor (log ++ [e]) i = countFor log i + (if e.1 = i then 1 else 0) := by
  unfold countFor
  rw [List.filter_append]
  by_cases h : e.1 = i
  · simp [h]
  · simp [h]

theorem invokeCb_callLog_count_ne {j i : Nat} (b : Bool) (h : j ≠ i) :
    countFor (invokeCb j b s).callLog i = countFor s.callLog i := by
  rw [invokeCb_callLog]
  split
  · rw [countFor_append]; simp [h]
  · rfl

theorem invokeCb_routeLog_count_ne {j i : Nat} (b : Bool) (h : j ≠ i) :
    countFor (invokeCb j b s).routeLog i = countFor s.routeLog i := by
  rw [invokeCb_routeLog, countFor_append]; simp [h]

theorem invokeCb_callLog_count_self (j : Nat) (b : Bool) :
    countFor (invokeCb j b s).callLog j
      = if countFor s.callLog j = 0 then 1 else countFor s.callLog j := by
  rw [invokeCb_callLog]
  split
  · rename_i h
    rw [countFor_append]; simp [h]
  · rename_i h
    simp [h]

theorem invokeCb_callLog_count_le (j i : Nat) (b : Bool)
    (h : countFor s.callLog i ≤ 1) : countFor (invokeCb j b s).callLog i ≤ 1 := by
  by_cases hji : j = i
  · subst hji
    rw [invokeCb_callLog_count_self]
    split <;> omega
  · rw [invokeCb_callLog_count_ne b hji]; exact h

theorem callsLe_of_eq {t : PoolState} (h : t.callLog = s.callLog) (hs : CallsLe s) :
    CallsLe t := by
  intro i; rw [h]; exact hs i

theorem callsLe_invokeCb (j : Nat) (b : Bool) (hs : CallsLe s) :
    CallsLe (invokeCb j b s) := by
  intro i; exact invokeCb_callLog_count_le j i b (hs i)

theorem callsLe_wrapperCb (rid j : Nat) (b : Bool) (hs : CallsLe s) :
    CallsLe (wrapperCb rid j b s) := by
  unfold wrapperCb
  exact callsLe_invokeCb j b (callsLe_of_eq (setRes_callLog rid _) hs)

theorem callsLe_emitError (rid : Nat) (hs : CallsLe s) : CallsLe (emitError rid s) := by
  unfold emitError
  split
  · exact hs
  · dsimp only
    rename_i r _
    have h1 : CallsLe (if r.poolErrArmed then
        poolOnError rid (setRes s rid (fun x => { x with poolErrArmed := false })) else s) := by
      split
      · exact callsLe_of_eq (by simp) hs
      · exact hs
    split
    · exact callsLe_invokeCb _ _ (callsLe_of_eq (by simp) h1)
    · exact h1

theorem callsLe_onSendDone (rid j : Nat) (ok : Bool) (now : Int) (hs : CallsLe s) :
    CallsLe (onSendDone rid j ok now s) := by
  unfold onSendDone
  dsimp only
  have h0 : CallsLe (setRes s rid fun r => { r with messages := r.messages + 1, phase := .idle }) :=
    callsLe_of_eq (by simp) hs
  split
  · have h1 := callsLe_wrapperCb rid j false h0
    split
    · split
      · exact callsLe_emitError rid h1
      · exact callsLe_of_eq (by simp) h1
    · exact h1
  · exact callsLe_wrapperCb rid j true (callsLe_emitError rid h0)

theorem callsLe_onConnectDone (rid j : Nat) (o : ConnOutcome) (hs : CallsLe s) :
    CallsLe (onConnectDone rid j o s) := by
  unfold onConnectDone
  cases o
  · exact callsLe_of_eq (by simp) hs
  · exact callsLe_wrapperCb rid j true
      (callsLe_emitError rid (callsLe_of_eq (by simp) hs))
  · exact callsLe_of_eq (by simp) (callsLe_emitError rid hs)

theorem callsLe_step (e : Ev) (hs : CallsLe s) : CallsLe (step e s) := by
  unfold step
  cases e
  · exact callsLe_of_eq (by simp) (callsLe_of_eq rfl hs)
  · exact callsLe_of_eq (by simp) hs
  · dsimp only
    split
    · split
      · exact callsLe_onConnectDone _ _ _ hs
      all_goals exact hs
    · exact hs
  · dsimp only
    split
    · split
      · exact callsLe_onSendDone _ _ _ _ hs
      all_goals exact hs
    · exact hs
  · dsimp only
    split
    · split
      · exact callsLe_emitError _ hs
      · exact hs
    · exact hs
  · dsimp only
    split
    · exact callsLe_of_eq (by simp) hs
    · exact hs
  · dsimp only
    split
    · exact callsLe_of_eq (by simp) hs
    · exact hs
  · dsimp only
    split
    · exact callsLe_of_eq (by simp) hs
    · exact hs

theorem callsLe_run (evs : List Ev) (hs : CallsLe s) : CallsLe (run evs s) := by
  induction evs generalizing s with
  | nil => exact hs
  | cons e evs ih => exact ih (callsLe_step e hs)

theorem callsLe_initPool (o : Opts) : CallsLe (initPool o) := by
  intro i; simp [initPool, countFor]

/-! ### Reference tracking: a submission no resource references -/

theorem not_refsIdx_update {r r' : Resource} {i : Nat} (h : ¬ refsIdx r i)
    (hph : r'.phase = r.phase ∨ r'.phase = .idle ∨
      ∃ j, j ≠ i ∧ (r'.phase = .connecting j ∨ r'.phase = .sending j))
    (hel : r'.errListener = r.errListener ∨ r'.errListener = none ∨
      ∃ j, j ≠ i ∧ r'.errListener = some j) :
    ¬ refsIdx r' i := by
  intro href
  rcases href with hc | hc | hc <;>
    rcases hph with hp | hp | ⟨j, hj, hp | hp⟩ <;>
      rcases hel with he | he | ⟨k, hk, he⟩ <;>
        simp_all [refsIdx]

theorem unref_of_resources_eq {i : Nat} {t : PoolState}
    (h : t.resources = s.resources) (hs : Unref i s) : Unref i t := by
  intro r hr
  rw [h] at hr
  exact hs r hr

theorem unref_setRes {i : Nat} (rid : Nat) (f : Resource → Resource)
    (hf : ∀ r, ¬ refsIdx r i → ¬ refsIdx (f r) i) (hs : Unref i s) :
    Unref i (setRes s rid f) := by
  intro r' hr'
  rw [setRes_resources] at hr'
  rcases List.mem_map.1 hr' with ⟨r, hr, hEq⟩
  subst hEq
  split
  · exact hf r (hs r hr)
  · exact hs r hr

theorem unref_dispatchTo {i : Nat} (now : Int) (rid j : Nat) (hj : j ≠ i)
    (hs : Unref i s) : Unref i (dispatchTo now rid j s) := by
  unfold dispatchTo resourceSendStart
  apply unref_setRes
  · intro r h
    refine not_refsIdx_update h ?_ (Or.inl rfl)
    right; right
    exact ⟨j, hj, by dsimp only; split <;> simp⟩
  apply unref_setRes
  · intro r h
    exact not_refsIdx_update h (Or.inl rfl) (Or.inr (Or.inr ⟨j, hj, rfl⟩))
  apply unref_of_resources_eq (rateCharge_resources _)
  apply unref_setRes
  · intro r h
    exact not_refsIdx_update h (Or.inl rfl) (Or.inl rfl)
  exact hs

theorem unref_createConnection {i : Nat} (hs : Unref i s) :
    Unref i (createConnection s).1 := by
  intro r hr
  unfold createConnection at hr
  dsimp only at hr
  rcases List.mem_append.1 hr with hr | hr
  · exact hs r hr
  · rcases List.mem_singleton.1 hr with rfl
    simp [refsIdx]

theorem processMessages_frozen {i : Nat} (now : Int)
    (hq : i ∉ s.queue ∨ s.closed = true) (hs : Unref i s) :
    Unref i (processMessages now s) ∧
      (i ∈ (processMessages now s).queue ↔ i ∈ s.queue) := by
  rcases hq with hq | hc
  · unfold processMessages
    split
    · exact ⟨hs, Iff.rfl⟩
    · split
      · exact ⟨hs, Iff.rfl⟩
      · rename_i hne j rest hQeq
        have hji : j ≠ i := fun h => hq (by rw [hQeq, h]; exact List.mem_cons_self _ _)
        have hqr : i ∉ rest := fun h => hq (by rw [hQeq]; exact List.mem_cons_of_mem _ h)
        split
        · constructor
          · exact unref_dispatchTo now _ j hji (unref_of_resources_eq rfl hs)
          · rw [dispatchTo_queue]
            simp only [hQeq]
            simp [hqr, hji, fun h => hq (hQeq ▸ h), List.mem_cons]
            intro h
            exact (hji h.symm).elim
        · split
          · constructor
            · exact unref_dispatchTo now _ j hji
                (unref_of_resources_eq rfl (unref_createConnection hs))
            · rw [dispatchTo_queue]
              simp only [hQeq]
              simp [hqr, List.mem_cons]
              intro h
              exact (hji h.symm).elim
          · exact ⟨hs, Iff.rfl⟩
  · rw [processMessages_of_closed now hc]
    exact ⟨hs, Iff.rfl⟩

theorem onAvailable_frozen {i : Nat} (now : Int)
    (hq : i ∉ s.queue ∨ s.closed = true) (hs : Unref i s) :
    Unref i (onAvailable now s) ∧
      (i ∈ (onAvailable now s).queue ↔ i ∈ s.queue) := by
  unfold onAvailable
  split
  · exact ⟨unref_of_resources_eq closeP_resources hs, by rw [closeP_queue]⟩
  · exact processMessages_frozen now hq hs

theorem contAvailable_frozen {i : Nat} (rid : Nat) (now : Int)
    (hq : i ∉ s.queue ∨ s.closed = true) (hs : Unref i s) :
    Unref i (contAvailable rid now s) ∧
      (i ∈ (contAvailable rid now s).queue ↔ i ∈ s.queue) := by
  unfold contAvailable
  have hs1 : Unref i (setRes s rid fun r => { r with available := true }) :=
    unref_setRes rid _ (fun r h => not_refsIdx_update h (Or.inl rfl) (Or.inl rfl)) hs
  exact onAvailable_frozen now (by simpa using hq) hs1

theorem clearRateLimit_frozen {i : Nat} (hs : Unref i s) :
    Unref i (clearRateLimit s) :=
  unref_of_resources_eq clearRateLimit_resources hs

theorem checkRateLimit_frozen {i : Nat} (now : Int) (rid : Nat)
    (hq : i ∉ s.queue ∨ s.closed = true) (hs : Unref i s) :
    Unref i (checkRateLimit now rid s) ∧
      (i ∈ (checkRateLimit now rid s).queue ↔ i ∈ s.queue) := by
  unfold checkRateLimit
  split
  · exact contAvailable_frozen rid now hq hs
  · split
    · exact contAvailable_frozen rid now hq hs
    · dsimp only
      split
      · refine ⟨clearRateLimit_frozen (unref_of_resources_eq rfl hs), ?_⟩
        rw [clearRateLimit_queue]
      · split
        · exact ⟨unref_of_resources_eq rfl hs, Iff.rfl⟩
        · exact ⟨unref_of_resources_eq rfl hs, Iff.rfl⟩

theorem emitError_frozen {i : Nat} (rid : Nat) (hs : Unref i s) :
    Unref i (emitError rid s) ∧
      countFor (emitError rid s).callLog i = countFor s.callLog i ∧
      countFor (emitError rid s).routeLog i = countFor s.routeLog i := by
  unfold emitError
  split
  · exact ⟨hs, rfl, rfl⟩
  · rename_i r hfind
    dsimp only
    have hrmem : r ∈ s.resources := List.mem_of_find?_eq_some hfind
    have hs1 : Unref i (if r.poolErrArmed then
        poolOnError rid (setRes s rid fun x => { x with poolErrArmed := false }) else s) := by
      split
      · exact unref_of_resources_eq (poolOnError_resources rid)
          (unref_setRes rid _
            (fun r h => not_refsIdx_update h (Or.inl rfl) (Or.inl rfl)) hs)
      · exact hs
    have hlog1 : (if r.poolErrArmed then
        poolOnError rid (setRes s rid fun x => { x with poolErrArmed := false }) else s).callLog
          = s.callLog := by
      split <;> simp
    have hlog2 : (if r.poolErrArmed then
        poolOnError rid (setRes s rid fun x => { x with poolErrArmed := false }) else s).routeLog
          = s.routeLog := by
      split <;> simp
    split
    · rename_i j hj
      have hji : j ≠ i := by
        intro h
        exact hs r hrmem (Or.inr (Or.inr (h ▸ hj)))
      refine ⟨?_, ?_, ?_⟩
      · apply unref_of_resources_eq (invokeCb_resources j true)
        exact unref_setRes rid _
          (fun r h => not_refsIdx_update h (Or.inl rfl) (Or.inr (Or.inl rfl))) hs1
      · rw [invokeCb_callLog_count_ne true hji, setRes_callLog, hlog1]
      · rw [invokeCb_routeLog_count_ne true hji, setRes_routeLog, hlog2]
    · exact ⟨hs1, by rw [hlog1], by rw [hlog2]⟩

theorem wrapperCb_frozen {i : Nat} (rid j : Nat) (b : Bool) (hj : j ≠ i)
    (hs : Unref i s) :
    Unref i (wrapperCb rid j b s) ∧
      countFor (wrapperCb rid j b s).callLog i = countFor s.callLog i ∧
      countFor (wrapperCb rid j b s).routeLog i = countFor s.routeLog i := by
  unfold wrapperCb
  refine ⟨?_, ?_, ?_⟩
  · apply unref_of_resources_eq (invokeCb_resources j b)
    exact unref_setRes rid _
      (fun r h => not_refsIdx_update h (Or.inl rfl) (Or.inr (Or.inl rfl))) hs
  · rw [invokeCb_callLog_count_ne b hj, setRes_callLog]
  · rw [invokeCb_routeLog_count_ne b hj, setRes_routeLog]

theorem onSendDone_frozen {i : Nat} (rid j : Nat) (ok : Bool) (now : Int) (hj : j ≠ i)
    (hq : i ∉ s.queue ∨ s.closed = true) (hs : Unref i s) :
    Unref i (onSendDone rid j ok now s) ∧
      (i ∈ (onSendDone rid j ok now s).queue ↔ i ∈ s.queue) ∧
      countFor (onSendDone rid j ok now s).callLog i = countFor s.callLog i ∧
      countFor (onSendDone rid j ok now s).routeLog i = countFor s.routeLog i := by
  unfold onSendDone
  dsimp only
  set s0 := setRes s rid fun r => { r with messages := r.messages + 1, phase := .idle } with hs0
  have hs0u : Unref i s0 :=
    unref_setRes rid _
      (fun r h => not_refsIdx_update h (Or.inr (Or.inl rfl)) (Or.inl rfl)) hs
  have hq0 : i ∉ s0.queue ∨ s0.closed = true := by simpa [hs0] using hq
  split
  · -- success branch
    rcases wrapperCb_frozen rid j false hj hs0u with ⟨hu1, hc1, hr1⟩
    set s1 := wrapperCb rid j false s0 with hs1
    have hq1 : i ∉ s1.queue ∨ s1.closed = true := by
      simpa [hs1, wrapperCb_queue, wrapperCb_closed, hs0] using hq
    split
    · split
      · rcases emitError_frozen rid hu1 with ⟨hu2, hc2, hr2⟩
        refine ⟨hu2, ?_, ?_, ?_⟩
        · rw [emitError_queue, wrapperCb_queue, setRes_queue]
        · rw [hc2, hc1]; simp [hs0]
        · rw [hr2, hr1]; simp [hs0]
      · rcases checkRateLimit_frozen now rid hq1 hu1 with ⟨hu2, hq2⟩
        refine ⟨hu2, ?_, ?_, ?_⟩
        · rw [hq2]; simp [hs1, hs0]
        · rw [checkRateLimit_callLog, hc1]; simp [hs0]
        · rw [checkRateLimit_routeLog, hr1]; simp [hs0]
    · refine ⟨hu1, ?_, ?_, ?_⟩
      · rw [wrapperCb_queue, setRes_queue]
      · rw [hc1]; simp [hs0]
      · rw [hr1]; simp [hs0]
  · -- error branch
    rcases emitError_frozen rid hs0u with ⟨hu1, hc1, hr1⟩
    rcases wrapperCb_frozen rid j true hj hu1 with ⟨hu2, hc2, hr2⟩
    refine ⟨hu2, ?_, ?_, ?_⟩
    · rw [wrapperCb_queue, emitError_queue, setRes_queue]
    · rw [hc2, hc1]; simp [hs0]
    · rw [hr2, hr1]; simp [hs0]

theorem onConnectDone_frozen {i : Nat} (rid j : Nat) (o : ConnOutcome) (hj : j ≠ i)
    (hs : Unref i s) :
    Unref i (onConnectDone rid j o s) ∧
      countFor (onConnectDone rid j o s).callLog i = countFor s.callLog i ∧
      countFor (onConnectDone rid j o s).routeLog i = countFor s.routeLog i := by
  unfold onConnectDone
  cases o
  · refine ⟨?_, by simp, by simp⟩
    exact unref_setRes rid _
      (fun r h => not_refsIdx_update h
        (Or.inr (Or.inr ⟨j, hj, Or.inr rfl⟩)) (Or.inl rfl)) hs
  · dsimp only
    have hsu : Unref i (setRes s rid fun r => { r with phase := Phase.idle }) :=
      unref_setRes rid _
        (fun r h => not_refsIdx_update h (Or.inr (Or.inl rfl)) (Or.inl rfl)) hs
    rcases emitError_frozen rid hsu with ⟨hu1, hc1, hr1⟩
    rcases wrapperCb_frozen rid j true hj hu1 with ⟨hu2, hc2, hr2⟩
    refine ⟨hu2, ?_, ?_⟩
    · rw [hc2, hc1, setRes_callLog]
    · rw [hr2, hr1, setRes_routeLog]
  · rcases emitError_frozen rid hs with ⟨hu1, hc1, hr1⟩
    refine ⟨?_, ?_, ?_⟩
    · unfold resourceSendStart
      apply unref_setRes
      · intro r h
        refine not_refsIdx_update h ?_ (Or.inl rfl)
        right; right
        exact ⟨j, hj, by dsimp only; split <;> simp⟩
      exact hu1
    · rw [resourceSendStart_callLog, hc1]
    · rw [resourceSendStart_routeLog, hr1]

theorem retired_step {i : Nat} (e : Ev) (h : Retired s i) :
    Retired (step e s) i ∧
      countFor (step e s).callLog i = countFor s.callLog i ∧
      countFor (step e s).routeLog i = countFor s.routeLog i := by
  obtain ⟨hn, hq, hu⟩ := h
  have hu : Unref i s := hu
  unfold step
  cases e with
  | send now =>
    set s1 : PoolState := { s with queue := s.queue ++ [s.nextIdx], nextIdx := s.nextIdx + 1 }
      with hs1
    have hq1 : i ∉ s1.queue := by
      simp only [hs1, List.mem_append, List.mem_singleton]
      rintro (h | h)
      · exact hq h
      · omega
    have hu1 : Unref i s1 := unref_of_resources_eq rfl hu
    rcases processMessages_frozen now (Or.inl hq1) hu1 with ⟨hu2, hq2⟩
    refine ⟨⟨?_, ?_, hu2⟩, ?_, ?_⟩
    · rw [processMessages_nextIdx]; simp only [hs1]; omega
    · rw [hq2]; exact hq1
    · rw [processMessages_callLog]
    · rw [processMessages_routeLog]
  | close =>
    exact ⟨⟨by simpa using hn, by simpa using hq,
      unref_of_resources_eq closeP_resources hu⟩, rfl, rfl⟩
  | connectDone rid o =>
    dsimp only
    split
    · rename_i r hfind
      split
      · rename_i j hph
        have hji : j ≠ i := by
          intro hcontra
          exact hu r (List.mem_of_find?_eq_some hfind) (Or.inl (hcontra ▸ hph))
        rcases onConnectDone_frozen rid j o hji hu with ⟨hu2, hc2, hr2⟩
        exact ⟨⟨by simpa using hn, by simpa using hq, hu2⟩, hc2, hr2⟩
      all_goals exact ⟨⟨hn, hq, hu⟩, rfl, rfl⟩
    · exact ⟨⟨hn, hq, hu⟩, rfl, rfl⟩
  | sendDone rid ok now =>
    dsimp only
    split
    · rename_i r hfind
      split
      · rename_i j hph
        have hji : j ≠ i := by
          intro hcontra
          exact hu r (List.mem_of_find?_eq_some hfind) (Or.inr (Or.inl (hcontra ▸ hph)))
        rcases onSendDone_frozen rid j ok now hji (Or.inl hq) hu with ⟨hu2, hq2, hc2, hr2⟩
        refine ⟨⟨by simpa using hn, ?_, hu2⟩, hc2, hr2⟩
        rw [hq2]; exact hq
      all_goals exact ⟨⟨hn, hq, hu⟩, rfl, rfl⟩
    · exact ⟨⟨hn, hq, hu⟩, rfl, rfl⟩
  | connError rid =>
    dsimp only
    split
    · split
      · rcases emitError_frozen rid hu with ⟨hu2, hc2, hr2⟩
        exact ⟨⟨by simpa using hn, by simpa [emitError_queue] using hq, hu2⟩, hc2, hr2⟩
      · exact ⟨⟨hn, hq, hu⟩, rfl, rfl⟩
    · exact ⟨⟨hn, hq, hu⟩, rfl, rfl⟩
  | timerFire =>
    dsimp only
    split
    · exact ⟨⟨by simpa using hn, by simpa using hq, clearRateLimit_frozen hu⟩, rfl, rfl⟩
    · exact ⟨⟨hn, hq, hu⟩, rfl, rfl⟩
  | immediateFire now =>
    dsimp only
    split
    · rename_i rid rest hImm
      set s1 : PoolState := { s with immediates := rest } with hs1
      have hu1 : Unref i s1 := unref_of_resources_eq rfl hu
      rcases contAvailable_frozen rid now (Or.inl (show i ∉ s1.queue from hq)) hu1 with
        ⟨hu2, hq2⟩
      refine ⟨⟨by simpa using hn, ?_, hu2⟩, by simp, by simp⟩
      rw [hq2]; exact hq
    · exact ⟨⟨hn, hq, hu⟩, rfl, rfl⟩
  | retryFire now =>
    dsimp only
    split
    · set s1 : PoolState := { s with pendingRetry := s.pendingRetry - 1 } with hs1
      have hu1 : Unref i s1 := unref_of_resources_eq rfl hu
      rcases processMessages_frozen now (Or.inl (show i ∉ s1.queue from hq)) hu1 with
        ⟨hu2, hq2⟩
      refine ⟨⟨by simpa using hn, ?_, hu2⟩, by simp, by simp⟩
      rw [hq2]; exact hq
    · exact ⟨⟨hn, hq, hu⟩, rfl, rfl⟩

theorem retired_run {i : Nat} (evs : List Ev) (h : Retired s i) :
    Retired (run evs s) i ∧
      countFor (run evs s).callLog i = countFor s.callLog i ∧
      countFor (run evs s).routeLog i = countFor s.routeLog i := by
  induction evs generalizing s with
  | nil => exact ⟨h, rfl, rfl⟩
  | cons e evs ih =>
    rcases retired_step e h with ⟨h1, hc1, hr1⟩
    rcases ih h1 with ⟨h2, hc2, hr2⟩
    exact ⟨h2, by rw [show run (e :: evs) s = run evs (step e s) from rfl, hc2, hc1],
      by rw [show run (e :: evs) s = run evs (step e s) from rfl, hr2, hr1]⟩

theorem stuck_step {i : Nat} (e : Ev) (h : StuckQueued s i) :
    StuckQueued (step e s) i ∧
      countFor (step e s).callLog i = countFor s.callLog i := by
  obtain ⟨hc, hq, hn, hu⟩ := h
  have hu : Unref i s := hu
  unfold step
  cases e with
  | send now =>
    dsimp only
    set s1 : PoolState := { s with queue := s.queue ++ [s.nextIdx], nextIdx := s.nextIdx + 1 }
      with hs1
    have hc1 : s1.closed = true := hc
    rw [processMessages_of_closed now hc1]
    refine ⟨⟨hc1, ?_, by simp only [hs1]; omega, unref_of_resources_eq rfl hu⟩, rfl⟩
    simp only [hs1, List.mem_append]
    exact Or.inl hq
  | close =>
    exact ⟨⟨closeP_closed, by simpa using hq, by simpa using hn,
      unref_of_resources_eq closeP_resources hu⟩, rfl⟩
  | connectDone rid o =>
    dsimp only
    split
    · rename_i r hfind
      split
      · rename_i j hph
        have hji : j ≠ i := by
          intro hcontra
          exact hu r (List.mem_of_find?_eq_some hfind) (Or.inl (hcontra ▸ hph))
        rcases onConnectDone_frozen rid j o hji hu with ⟨hu2, hc2, _⟩
        exact ⟨⟨by simpa using hc, by simpa [onConnectDone_queue] using hq,
          by simpa using hn, hu2⟩, hc2⟩
      all_goals exact ⟨⟨hc, hq, hn, hu⟩, rfl⟩
    · exact ⟨⟨hc, hq, hn, hu⟩, rfl⟩
  | sendDone rid ok now =>
    dsimp only
    split
    · rename_i r hfind
      split
      · rename_i j hph
        have hji : j ≠ i := by
          intro hcontra
          exact hu r (List.mem_of_find?_eq_some hfind) (Or.inr (Or.inl (hcontra ▸ hph)))
        rcases onSendDone_frozen rid j ok now hji (Or.inr hc) hu with ⟨hu2, hq2, hc2, _⟩
        refine ⟨⟨by simpa using hc, ?_, by simpa using hn, hu2⟩, hc2⟩
        rw [hq2]; exact hq
      all_goals exact ⟨⟨hc, hq, hn, hu⟩, rfl⟩
    · exact ⟨⟨hc, hq, hn, hu⟩, rfl⟩
  | connError rid =>
    dsimp only
    split
    · split
      · rcases emitError_frozen rid hu with ⟨hu2, hc2, _⟩
        exact ⟨⟨by simpa using hc, by simpa [emitError_queue] using hq,
          by simpa using hn, hu2⟩, hc2⟩
      · exact ⟨⟨hc, hq, hn, hu⟩, rfl⟩
    · exact ⟨⟨hc, hq, hn, hu⟩, rfl⟩
  | timerFire =>
    dsimp only
    split
    · exact ⟨⟨by simpa using hc, by simpa using hq, by simpa using hn,
        clearRateLimit_frozen hu⟩, rfl⟩
    · exact ⟨⟨hc, hq, hn, hu⟩, rfl⟩
  | immediateFire now =>
    dsimp only
    split
    · rename_i rid rest hImm
      set s1 : PoolState := { s with immediates := rest } with hs1
      have hu1 : Unref i s1 := unref_of_resources_eq rfl hu
      rcases contAvailable_frozen rid now (Or.inr (show s1.closed = true from hc)) hu1 with
        ⟨hu2, hq2⟩
      refine ⟨⟨by simpa using hc, ?_, by simpa using hn, hu2⟩, by simp⟩
      rw [hq2]; exact hq
    · exact ⟨⟨hc, hq, hn, hu⟩, rfl⟩
  | retryFire now =>
    dsimp only
    split
    · set s1 : PoolState := { s with pendingRetry := s.pendingRetry - 1 } with hs1
      have hc1 : s1.closed = true := hc
      rw [processMessages_of_closed now hc1]
      exact ⟨⟨hc1, hq, hn, unref_of_resources_eq rfl hu⟩, rfl⟩
    · exact ⟨⟨hc, hq, hn, hu⟩, rfl⟩

theorem stuck_run {i : Nat} (evs : List Ev) (h : StuckQueued s i) :
    StuckQueued (run evs s) i ∧
      countFor (run evs s).callLog i = countFor s.callLog i := by
  induction evs generalizing s with
  | nil => exact ⟨h, rfl⟩
  | cons e evs ih =>
    rcases stuck_step e h with ⟨h1, hc1⟩
    rcases ih h1 with ⟨h2, hc2⟩
    exact ⟨h2, by rw [show run (e :: evs) s = run evs (step e s) from rfl, hc2, hc1]⟩

/-! ### The per-resource message bound -/

theorem getRes_mem {rid : Nat} {r : Resource} (h : getRes s rid = some r) :
    r ∈ s.resources :=
  List.mem_of_find?_eq_some h

theorem getRes_rid {rid : Nat} {r : Resource} (h : getRes s rid = some r) :
    r.rid = rid := by
  have := List.find?_some h
  simpa using this

theorem mem_rid_unique (hnd : (s.resources.map Resource.rid).Nodup) {rid : Nat}
    {r₀ r : Resource} (h₀ : getRes s rid = some r₀) (hr : r ∈ s.resources)
    (hrid : r.rid = rid) : r = r₀ := by
  exact List.inj_on_of_nodup_map hnd hr (getRes_mem h₀)
    (by rw [hrid, getRes_rid h₀])

theorem c5_of_core_eq {t : PoolState} (hopts : t.opts = s.opts)
    (hres : t.resources = s.resources) (hconns : t.conns = s.conns)
    (hcc : t.connectionCounter = s.connectionCounter) (h : C5Inv s) : C5Inv t := by
  obtain ⟨h1, h2, h3, h4, h5, h6, h7, h8, h9⟩ := h
  exact ⟨by rw [hopts]; exact h1,
    by rw [hres, hcc]; exact h2,
    by rw [hres]; exact h3,
    by rw [hconns, hcc]; exact h4,
    by rw [hconns]; exact h5,
    by rw [hconns, hres]; exact h6,
    by rw [hconns, hres, hopts]; exact h7,
    by rw [hres, hopts]; exact h8,
    by rw [hres, hopts]; exact h9⟩

theorem setRes_map_rid (rid : Nat) (f : Resource → Resource)
    (hrid : ∀ r, (f r).rid = r.rid) :
    (setRes s rid f).resources.map Resource.rid = s.resources.map Resource.rid := by
  rw [setRes_resources, List.map_map]
  apply List.map_congr_left
  intro r _
  simp only [Function.comp]
  split <;> simp [hrid]

theorem c5_setRes_frame (rid : Nat) (f : Resource → Resource)
    (hrid : ∀ r, (f r).rid = r.rid) (hmsg : ∀ r, (f r).messages = r.messages)
    (harm : ∀ r, (f r).poolErrArmed = r.poolErrArmed)
    (hph : ∀ r i, ((f r).phase = .connecting i ∨ (f r).phase = .sending i) →
      (r.phase = .connecting i ∨ r.phase = .sending i))
    (h : C5Inv s) : C5Inv (setRes s rid f) := by
  obtain ⟨h1, h2, h3, h4, h5, h6, h7, h8, h9⟩ := h
  refine ⟨h1, ?_, ?_, h4, h5, ?_, ?_, ?_, ?_⟩
  · intro r' hr'
    rw [setRes_resources] at hr'
    rcases List.mem_map.1 hr' with ⟨r, hr, hEq⟩
    subst hEq
    split
    · rw [hrid]; exact h2 r hr
    · exact h2 r hr
  · rw [setRes_map_rid rid f hrid]; exact h3
  · intro rid0 hrid0 r' hr' hEq
    rw [setRes_resources] at hr'
    rcases List.mem_map.1 hr' with ⟨r, hr, hEq2⟩
    subst hEq2
    revert hEq
    split
    · rw [hrid, harm]; intro hEq; exact h6 rid0 hrid0 r hr hEq
    · intro hEq; exact h6 rid0 hrid0 r hr hEq
  · intro rid0 hrid0 r' hr' hEq
    rw [setRes_resources] at hr'
    rcases List.mem_map.1 hr' with ⟨r, hr, hEq2⟩
    subst hEq2
    revert hEq
    split
    · rw [hrid, hmsg]; intro hEq; exact h7 rid0 hrid0 r hr hEq
    · intro hEq; exact h7 rid0 hrid0 r hr hEq
  · intro r' hr' i hEq
    rw [setRes_resources] at hr'
    rcases List.mem_map.1 hr' with ⟨r, hr, hEq2⟩
    subst hEq2
    revert hEq
    split
    · intro hEq; rw [hmsg]; exact h8 r hr i (hph r i hEq)
    · intro hEq; exact h8 r hr i hEq
  · intro r' hr'
    rw [setRes_resources] at hr'
    rcases List.mem_map.1 hr' with ⟨r, hr, hEq2⟩
    subst hEq2
    split
    · rw [hmsg]; exact h9 r hr
    · exact h9 r hr

theorem c5_setRes_any_phase (rid : Nat) (f : Resource → Resource)
    (hrid : ∀ r, (f r).rid = r.rid) (hmsg : ∀ r, (f r).messages = r.messages)
    (harm : ∀ r, (f r).poolErrArmed = r.poolErrArmed)
    (hfl : ∀ r ∈ s.resources, r.rid = rid → r.messages < s.opts.maxMessages)
    (h : C5Inv s) : C5Inv (setRes s rid f) := by
  obtain ⟨h1, h2, h3, h4, h5, h6, h7, h8, h9⟩ := h
  refine ⟨h1, ?_, ?_, h4, h5, ?_, ?_, ?_, ?_⟩
  · intro r' hr'
    rw [setRes_resources] at hr'
    rcases List.mem_map.1 hr' with ⟨r, hr, hEq⟩
    subst hEq
    split
    · rw [hrid]; exact h2 r hr
    · exact h2 r hr
  · rw [setRes_map_rid rid f hrid]; exact h3
  · intro rid0 hrid0 r' hr' hEq
    rw [setRes_resources] at hr'
    rcases List.mem_map.1 hr' with ⟨r, hr, hEq2⟩
    subst hEq2
    revert hEq
    split
    · rw [hrid, harm]; intro hEq; exact h6 rid0 hrid0 r hr hEq
    · intro hEq; exact h6 rid0 hrid0 r hr hEq
  · intro rid0 hrid0 r' hr' hEq
    rw [setRes_resources] at hr'
    rcases List.mem_map.1 hr' with ⟨r, hr, hEq2⟩
    subst hEq2
    revert hEq
    split
    · rw [hrid, hmsg]; intro hEq; exact h7 rid0 hrid0 r hr hEq
    · intro hEq; exact h7 rid0 hrid0 r hr hEq
  · intro r' hr' i hEq
    rw [setRes_resources] at hr'
    rcases List.mem_map.1 hr' with ⟨r, hr, hEq2⟩
    subst hEq2
    revert hEq
    split
    · rename_i hcase
      intro hEq; rw [hmsg]; exact hfl r hr hcase
    · intro hEq; exact h8 r hr i hEq
  · intro r' hr'
    rw [setRes_resources] at hr'
    rcases List.mem_map.1 hr' with ⟨r, hr, hEq2⟩
    subst hEq2
    split
    · rw [hmsg]; exact h9 r hr
    · exact h9 r hr

theorem msgShape_refl : MsgShape s s := fun r hr => ⟨r, hr, rfl, rfl⟩

theorem msgShape_of_resources_eq {t : PoolState} (h : t.resources = s.resources) :
    MsgShape s t := fun r hr => ⟨r, h ▸ hr, rfl, rfl⟩

theorem msgShape_setRes (rid : Nat) (f : Resource → Resource)
    (hrid : ∀ r, (f r).rid = r.rid) (hmsg : ∀ r, (f r).messages = r.messages) :
    MsgShape s (setRes s rid f) := by
  intro r' hr'
  rw [setRes_resources] at hr'
  rcases List.mem_map.1 hr' with ⟨r, hr, hEq⟩
  subst hEq
  refine ⟨r, hr, ?_, ?_⟩ <;> split <;> simp [hrid, hmsg]

theorem msgShape_trans {t u : PoolState} (h1 : MsgShape s t) (h2 : MsgShape t u) :
    MsgShape s u := by
  intro r' hr'
  rcases h2 r' hr' with ⟨r1, hr1, e1, e2⟩
  rcases h1 r1 hr1 with ⟨r0, hr0, e3, e4⟩
  exact ⟨r0, hr0, e1.trans e3, e2.trans e4⟩

theorem c5_closeP (h : C5Inv s) : C5Inv (closeP s) := by
  obtain ⟨h1, h2, h3, h4, h5, h6, h7, h8, h9⟩ := h
  refine ⟨h1, h2, h3, ?_, ?_, ?_, ?_, h8, h9⟩
  · intro rid0 hrid0
    exact h4 rid0 (List.mem_of_mem_filter hrid0)
  · exact List.Nodup.filter _ h5
  · intro rid0 hrid0
    exact h6 rid0 (List.mem_of_mem_filter hrid0)
  · intro rid0 hrid0
    exact h7 rid0 (List.mem_of_mem_filter hrid0)

theorem c5pre_of_inv (rid : Nat) (h : C5Inv s) : C5Pre rid s :=
  ⟨h.posMax, h.ridLe, h.ridNodup, h.connLe, h.connNodup, h.connArmed,
    fun rid0 h0 _ => h.connMsg rid0 h0, h.flightMsg, h.allMsg⟩

theorem c5inv_of_pre {rid : Nat} (h : C5Pre rid s)
    (hfl : rid ∈ s.conns →
      ∀ r ∈ s.resources, r.rid = rid → r.messages < s.opts.maxMessages) :
    C5Inv s := by
  refine ⟨h.posMax, h.ridLe, h.ridNodup, h.connLe, h.connNodup, h.connArmed, ?_,
    h.flightMsg, h.allMsg⟩
  intro rid0 h0 r hr hEq
  by_cases hr0 : rid0 = rid
  · exact hfl (hr0 ▸ h0) r hr (hr0 ▸ hEq)
  · exact h.connMsgNe rid0 h0 hr0 r hr hEq

theorem c5_emitError {rid : Nat} (h : C5Pre rid s) : C5Inv (emitError rid s) := by
  unfold emitError
  split
  · rename_i hnone
    apply c5inv_of_pre h
    intro _ r hr hEq
    have := List.find?_eq_none.1 hnone r hr
    simp [hEq] at this
  · rename_i r hfind
    dsimp only
    have hrmem : r ∈ s.resources := getRes_mem hfind
    have hrrid : r.rid = rid := getRes_rid hfind
    have h1 : C5Inv (if r.poolErrArmed then
        poolOnError rid (setRes s rid fun x => { x with poolErrArmed := false }) else s) := by
      split
      · rename_i harmed
        unfold poolOnError
        dsimp only
        set sA := setRes s rid (fun x => { x with poolErrArmed := false }) with hsA
        have hB : C5Inv { sA with conns := sA.conns.erase rid } := by
          refine ⟨h.posMax, ?_, ?_, ?_, ?_, ?_, ?_, ?_, ?_⟩
          · intro r' hr'
            simp only [hsA, setRes_resources] at hr'
            rcases List.mem_map.1 hr' with ⟨r1, hr1, hEq⟩
            subst hEq
            split <;> exact h.ridLe r1 hr1
          · show (sA.resources.map Resource.rid).Nodup
            rw [hsA, setRes_map_rid rid (fun x => { x with poolErrArmed := false })
              (fun r => rfl)]
            exact h.ridNodup
          · intro rid0 hrid0
            exact h.connLe rid0 (List.mem_of_mem_erase hrid0)
          · exact List.Nodup.erase rid h.connNodup
          · intro rid0 hrid0 r' hr' hEq
            rcases (List.Nodup.mem_erase_iff h.connNodup).1 hrid0 with ⟨hne, hmem⟩
            simp only [hsA, setRes_resources] at hr'
            rcases List.mem_map.1 hr' with ⟨r1, hr1, hEq2⟩
            subst hEq2
            revert hEq
            split
            · rename_i hcase
              intro hEq
              have hEq' : r1.rid = rid0 := hEq
              exact absurd (hEq'.symm.trans hcase) hne
            · intro hEq
              exact h.connArmed rid0 hmem r1 hr1 hEq
          · intro rid0 hrid0 r' hr' hEq
            rcases (List.Nodup.mem_erase_iff h.connNodup).1 hrid0 with ⟨hne, hmem⟩
            simp only [hsA, setRes_resources] at hr'
            rcases List.mem_map.1 hr' with ⟨r1, hr1, hEq2⟩
            subst hEq2
            revert hEq
            split
            · rename_i hcase
              intro hEq
              have hEq' : r1.rid = rid0 := hEq
              exact absurd (hEq'.symm.trans hcase) hne
            · intro hEq
              exact h.connMsgNe rid0 hmem hne r1 hr1 hEq
          · intro r' hr' i hEq
            simp only [hsA, setRes_resources] at hr'
            rcases List.mem_map.1 hr' with ⟨r1, hr1, hEq2⟩
            subst hEq2
            revert hEq
            split <;> intro hEq <;> exact h.flightMsg r1 hr1 i hEq
          · intro r' hr'
            simp only [hsA, setRes_resources] at hr'
            rcases List.mem_map.1 hr' with ⟨r1, hr1, hEq2⟩
            subst hEq2
            split <;> exact h.allMsg r1 hr1
        split
        · exact c5_closeP hB
        · refine c5_of_core_eq ?_ ?_ ?_ ?_ hB <;> rfl
      · rename_i hnarmed
        apply c5inv_of_pre h
        intro hin
        have := h.connArmed rid hin r hrmem hrrid
        simp [this] at hnarmed
    split
    · refine c5_of_core_eq ?_ ?_ ?_ ?_
        (c5_setRes_frame rid (fun x => { x with errListener := none })
          (fun r => rfl) (fun r => rfl) (fun r => rfl)
          (fun r i hEq => hEq) h1) <;> simp
    · exact h1

theorem c5_wrapperCb (rid j : Nat) (b : Bool) (h : C5Inv s) :
    C5Inv (wrapperCb rid j b s) := by
  unfold wrapperCb
  refine c5_of_core_eq ?_ ?_ ?_ ?_
    (c5_setRes_frame rid (fun r => { r with errListener := none })
      (fun r => rfl) (fun r => rfl) (fun r => rfl) (fun r i hEq => hEq) h) <;> simp

theorem c5_createConnection (h : C5Inv s) : C5Inv (createConnection s).1 := by
  obtain ⟨h1, h2, h3, h4, h5, h6, h7, h8, h9⟩ := h
  unfold createConnection
  dsimp only
  refine ⟨h1, ?_, ?_, ?_, ?_, ?_, ?_, ?_, ?_⟩ <;> dsimp only
  · intro r' hr'
    rcases List.mem_append.1 hr' with hr' | hr'
    · have := h2 r' hr'; omega
    · rcases List.mem_singleton.1 hr' with rfl
      dsimp only
      omega
  · rw [List.map_append]
    apply List.Nodup.append h3 (List.nodup_singleton _)
    intro a ha hb
    rcases List.mem_singleton.1 hb with rfl
    rcases List.mem_map.1 ha with ⟨r', hr', hEq⟩
    have := h2 r' hr'
    dsimp only at hEq
    omega
  · intro rid0 hrid0
    rcases List.mem_append.1 hrid0 with hr | hr
    · have := h4 rid0 hr; omega
    · rcases List.mem_singleton.1 hr with rfl
      omega
  · apply List.Nodup.append h5 (List.nodup_singleton _)
    intro a ha hb
    rcases List.mem_singleton.1 hb with rfl
    have := h4 _ ha
    omega
  · intro rid0 hrid0 r' hr' hEq
    rcases List.mem_append.1 hrid0 with hin | hin
    · rcases List.mem_append.1 hr' with hrin | hrin
      · exact h6 rid0 hin r' hrin hEq
      · rcases List.mem_singleton.1 hrin with rfl
        have := h4 rid0 hin
        dsimp only at hEq
        omega
    · rcases List.mem_singleton.1 hin with rfl
      rcases List.mem_append.1 hr' with hrin | hrin
      · have := h2 r' hrin
        omega
      · rcases List.mem_singleton.1 hrin with rfl
        rfl
  · intro rid0 hrid0 r' hr' hEq
    rcases List.mem_append.1 hrid0 with hin | hin
    · rcases List.mem_append.1 hr' with hrin | hrin
      · exact h7 rid0 hin r' hrin hEq
      · rcases List.mem_singleton.1 hrin with rfl
        have := h4 rid0 hin
        dsimp only at hEq
        omega
    · rcases List.mem_singleton.1 hin with rfl
      rcases List.mem_append.1 hr' with hrin | hrin
      · have := h2 r' hrin
        omega
      · rcases List.mem_singleton.1 hrin with rfl
        dsimp only
        omega
  · intro r' hr' i hEq
    rcases List.mem_append.1 hr' with hrin | hrin
    · exact h8 r' hrin i hEq
    · rcases List.mem_singleton.1 hrin with rfl
      simp at hEq
  · intro r' hr'
    rcases List.mem_append.1 hr' with hrin | hrin
    · exact h9 r' hrin
    · rcases List.mem_singleton.1 hrin with rfl
      dsimp only
      omega

theorem hfl_transfer {t : PoolState} (rid : Nat) (hshape : MsgShape s t)
    (hopts : t.opts = s.opts)
    (hfl : ∀ r ∈ s.resources, r.rid = rid → r.messages < s.opts.maxMessages) :
    ∀ r' ∈ t.resources, r'.rid = rid → r'.messages < t.opts.maxMessages := by
  intro r' hr' hEq
  rcases hshape r' hr' with ⟨r, hr, e1, e2⟩
  rw [hopts, e2]
  exact hfl r hr (by rw [← e1]; exact hEq)

theorem c5_dispatchTo (now : Int) (rid j : Nat)
    (hfl : ∀ r ∈ s.resources, r.rid = rid → r.messages < s.opts.maxMessages)
    (h : C5Inv s) : C5Inv (dispatchTo now rid j s) := by
  unfold dispatchTo resourceSendStart
  set s1 := setRes s rid (fun r => { r with available := false }) with hs1
  set s2 := rateCharge now s1 with hs2
  set s3 := setRes s2 rid (fun r => { r with errListener := some j }) with hs3
  have h1 : C5Inv s1 :=
    c5_setRes_frame rid _ (fun r => rfl) (fun r => rfl) (fun r => rfl)
      (fun r i hEq => hEq) h
  have h2 : C5Inv s2 := by
    refine c5_of_core_eq ?_ ?_ ?_ ?_ h1 <;> simp [hs2]
  have h3 : C5Inv s3 :=
    c5_setRes_frame rid _ (fun r => rfl) (fun r => rfl) (fun r => rfl)
      (fun r i hEq => hEq) h2
  have hsh : MsgShape s s3 := by
    apply msgShape_trans (t := s1)
    · exact msgShape_setRes rid _ (fun r => rfl) (fun r => rfl)
    · apply msgShape_trans (t := s2)
      · exact msgShape_of_resources_eq (by simp [hs2])
      · exact msgShape_setRes rid _ (fun r => rfl) (fun r => rfl)
  have hopts3 : s3.opts = s.opts := by simp [hs3, hs2, hs1]
  exact c5_setRes_any_phase rid _ (fun r => rfl) (fun r => rfl) (fun r => rfl)
    (hfl_transfer rid hsh hopts3 hfl) h3

theorem c5_processMessages (now : Int) (h : C5Inv s) :
    C5Inv (processMessages now s) := by
  unfold processMessages
  split
  · exact h
  · split
    · exact h
    · rename_i j rest hQ
      split
      · rename_i rid hfind
        have hmem : rid ∈ s.conns := List.mem_of_find?_eq_some hfind
        have h' : C5Inv { s with queue := rest } := by
          refine c5_of_core_eq ?_ ?_ ?_ ?_ h <;> rfl
        exact c5_dispatchTo now rid j (fun r hr hEq => h.connMsg rid hmem r hr hEq) h'
      · split
        · have hc : C5Inv (createConnection s).1 := c5_createConnection h
          have h' : C5Inv { (createConnection s).1 with queue := rest } := by
            refine c5_of_core_eq ?_ ?_ ?_ ?_ hc <;> rfl
          apply c5_dispatchTo now _ j ?_ h'
          intro r hr hEq
          unfold createConnection at hr hEq ⊢
          dsimp only at hr hEq ⊢
          rcases List.mem_append.1 hr with hrin | hrin
          · have := h.ridLe r hrin
            omega
          · rcases List.mem_singleton.1 hrin with rfl
            dsimp only
            have := h.posMax
            omega
        · exact h

theorem c5_onAvailable (now : Int) (h : C5Inv s) : C5Inv (onAvailable now s) := by
  unfold onAvailable
  split
  · exact c5_closeP h
  · exact c5_processMessages now h

theorem c5_contAvailable (rid : Nat) (now : Int) (h : C5Inv s) :
    C5Inv (contAvailable rid now s) := by
  unfold contAvailable
  exact c5_onAvailable now
    (c5_setRes_frame rid _ (fun r => rfl) (fun r => rfl) (fun r => rfl)
      (fun r i hEq => hEq) h)

theorem c5_clearRateLimit (h : C5Inv s) : C5Inv (clearRateLimit s) := by
  refine c5_of_core_eq ?_ ?_ ?_ ?_ h <;> rfl

theorem c5_checkRateLimit (now : Int) (rid : Nat) (h : C5Inv s) :
    C5Inv (checkRateLimit now rid s) := by
  unfold checkRateLimit
  split
  · exact c5_contAvailable rid now h
  · split
    · exact c5_contAvailable rid now h
    · dsimp only
      split
      · apply c5_clearRateLimit
        refine c5_of_core_eq ?_ ?_ ?_ ?_ h <;> rfl
      · split
        · refine c5_of_core_eq ?_ ?_ ?_ ?_ h <;> rfl
        · refine c5_of_core_eq ?_ ?_ ?_ ?_ h <;> rfl

theorem c5pre_of_core_eq {rid : Nat} {t : PoolState} (hopts : t.opts = s.opts)
    (hres : t.resources = s.resources) (hconns : t.conns = s.conns)
    (hcc : t.connectionCounter = s.connectionCounter) (h : C5Pre rid s) :
    C5Pre rid t := by
  obtain ⟨h1, h2, h3, h4, h5, h6, h7, h8, h9⟩ := h
  exact ⟨by rw [hopts]; exact h1,
    by rw [hres, hcc]; exact h2,
    by rw [hres]; exact h3,
    by rw [hconns, hcc]; exact h4,
    by rw [hconns]; exact h5,
    by rw [hconns, hres]; exact h6,
    by rw [hconns, hres, hopts]; exact h7,
    by rw [hres, hopts]; exact h8,
    by rw [hres, hopts]; exact h9⟩

theorem c5pre_setRes_frame {rid0 : Nat} (rid : Nat) (f : Resource → Resource)
    (hrid : ∀ r, (f r).rid = r.rid) (hmsg : ∀ r, (f r).messages = r.messages)
    (harm : ∀ r, (f r).poolErrArmed = r.poolErrArmed)
    (hph : ∀ r i, ((f r).phase = .connecting i ∨ (f r).phase = .sending i) →
      (r.phase = .connecting i ∨ r.phase = .sending i))
    (h : C5Pre rid0 s) : C5Pre rid0 (setRes s rid f) := by
  obtain ⟨h1, h2, h3, h4, h5, h6, h7, h8, h9⟩ := h
  refine ⟨h1, ?_, ?_, h4, h5, ?_, ?_, ?_, ?_⟩
  · intro r' hr'
    rw [setRes_resources] at hr'
    rcases List.mem_map.1 hr' with ⟨r, hr, hEq⟩
    subst hEq
    split
    · rw [hrid]; exact h2 r hr
    · exact h2 r hr
  · rw [setRes_map_rid rid f hrid]; exact h3
  · intro rid1 hrid1 r' hr' hEq
    rw [setRes_resources] at hr'
    rcases List.mem_map.1 hr' with ⟨r, hr, hEq2⟩
    subst hEq2
    revert hEq
    split
    · rw [hrid, harm]; intro hEq; exact h6 rid1 hrid1 r hr hEq
    · intro hEq; exact h6 rid1 hrid1 r hr hEq
  · intro rid1 hrid1 hne r' hr' hEq
    rw [setRes_resources] at hr'
    rcases List.mem_map.1 hr' with ⟨r, hr, hEq2⟩
    subst hEq2
    revert hEq
    split
    · rw [hrid, hmsg]; intro hEq; exact h7 rid1 hrid1 hne r hr hEq
    · intro hEq; exact h7 rid1 hrid1 hne r hr hEq
  · intro r' hr' i hEq
    rw [setRes_resources] at hr'
    rcases List.mem_map.1 hr' with ⟨r, hr, hEq2⟩
    subst hEq2
    revert hEq
    split
    · intro hEq; rw [hmsg]; exact h8 r hr i (hph r i hEq)
    · intro hEq; exact h8 r hr i hEq
  · intro r' hr'
    rw [setRes_resources] at hr'
    rcases List.mem_map.1 hr' with ⟨r, hr, hEq2⟩
    subst hEq2
    split
    · rw [hmsg]; exact h9 r hr
    · exact h9 r hr

theorem c5pre_wrapperCb {rid0 : Nat} (rid j : Nat) (b : Bool) (h : C5Pre rid0 s) :
    C5Pre rid0 (wrapperCb rid j b s) := by
  unfold wrapperCb
  refine c5pre_of_core_eq ?_ ?_ ?_ ?_
    (c5pre_setRes_frame rid (fun r => { r with errListener := none })
      (fun r => rfl) (fun r => rfl) (fun r => rfl) (fun r i hEq => hEq) h) <;> simp

theorem msgShape_emitError (rid : Nat) : MsgShape s (emitError rid s) := by
  unfold emitError
  split
  · exact msgShape_refl
  · rename_i r hfind
    dsimp only
    have h1 : MsgShape s (if r.poolErrArmed then
        poolOnError rid (setRes s rid fun x => { x with poolErrArmed := false }) else s) := by
      split
      · exact msgShape_trans
          (msgShape_setRes rid (fun x => { x with poolErrArmed := false })
            (fun r => rfl) (fun r => rfl))
          (msgShape_of_resources_eq (poolOnError_resources rid))
      · exact msgShape_refl
    split
    · exact msgShape_trans
        (msgShape_trans h1
          (msgShape_setRes rid (fun x => { x with errListener := none })
            (fun r => rfl) (fun r => rfl)))
        (msgShape_of_resources_eq (invokeCb_resources _ _))
    · exact h1

theorem c5_onSendDone (rid j : Nat) (ok : Bool) (now : Int) {r₀ : Resource}
    (hfind : getRes s rid = some r₀) (hph : r₀.phase = .sending j)
    (h : C5Inv s) : C5Inv (onSendDone rid j ok now s) := by
  have hr₀mem : r₀ ∈ s.resources := getRes_mem hfind
  have hlt : r₀.messages < s.opts.maxMessages := h.flightMsg r₀ hr₀mem j (Or.inr hph)
  unfold onSendDone
  dsimp only
  set s0 := setRes s rid (fun r => { r with messages := r.messages + 1, phase := Phase.idle })
    with hs0
  have hpre0 : C5Pre rid s0 := by
    refine ⟨h.posMax, ?_, ?_, h.connLe, h.connNodup, ?_, ?_, ?_, ?_⟩
    · intro r' hr'
      simp only [hs0, setRes_resources] at hr'
      rcases List.mem_map.1 hr' with ⟨r, hr, hEq⟩
      subst hEq
      split <;> exact h.ridLe r hr
    · show (s0.resources.map Resource.rid).Nodup
      rw [hs0, setRes_map_rid rid
        (fun r => { r with messages := r.messages + 1, phase := Phase.idle }) (fun r => rfl)]
      exact h.ridNodup
    · intro rid1 hrid1 r' hr' hEq
      simp only [hs0, setRes_resources] at hr'
      rcases List.mem_map.1 hr' with ⟨r, hr, hEq2⟩
      subst hEq2
      revert hEq
      split <;> intro hEq <;> exact h.connArmed rid1 hrid1 r hr hEq
    · intro rid1 hrid1 hne r' hr' hEq
      simp only [hs0, setRes_resources] at hr'
      rcases List.mem_map.1 hr' with ⟨r, hr, hEq2⟩
      subst hEq2
      revert hEq
      split
      · rename_i hcase
        intro hEq
        have hEq' : r.rid = rid1 := hEq
        exact absurd (hEq'.symm.trans hcase) hne
      · intro hEq
        exact h.connMsg rid1 hrid1 r hr hEq
    · intro r' hr' i hEq
      simp only [hs0, setRes_resources] at hr'
      rcases List.mem_map.1 hr' with ⟨r, hr, hEq2⟩
      subst hEq2
      revert hEq
      split
      · intro hEq
        simp at hEq
      · intro hEq
        exact h.flightMsg r hr i hEq
    · intro r' hr'
      simp only [hs0, setRes_resources] at hr'
      rcases List.mem_map.1 hr' with ⟨r, hr, hEq2⟩
      subst hEq2
      split
      · rename_i hcase
        have hu : r = r₀ := mem_rid_unique h.ridNodup hfind hr hcase
        rw [hu]
        dsimp only
        have hop : s0.opts = s.opts := by simp [hs0]
        rw [hop]
        omega
      · exact h.allMsg r hr
  split
  · set s1 := wrapperCb rid j false s0 with hs1
    have hpre1 : C5Pre rid s1 := c5pre_wrapperCb rid j false hpre0
    split
    · rename_i r1 hfind1
      split
      · exact c5_emitError hpre1
      · rename_i hnlt
        apply c5_checkRateLimit
        apply c5inv_of_pre hpre1
        intro _ r hr hEq
        have hu : r = r1 := mem_rid_unique hpre1.ridNodup hfind1 hr hEq
        rw [hu]
        have hop : s1.opts = s.opts := by simp [hs1, hs0]
        rw [hop]
        rw [hop] at hnlt
        omega
    · rename_i hnone
      apply c5inv_of_pre hpre1
      intro _ r hr hEq
      have := List.find?_eq_none.1 hnone r hr
      simp [hEq] at this
  · exact c5_wrapperCb rid j true (c5_emitError hpre0)

theorem c5_onConnectDone (rid j : Nat) (o : ConnOutcome) {r₀ : Resource}
    (hfind : getRes s rid = some r₀) (hph : r₀.phase = .connecting j)
    (h : C5Inv s) : C5Inv (onConnectDone rid j o s) := by
  have hr₀mem : r₀ ∈ s.resources := getRes_mem hfind
  have hlt : r₀.messages < s.opts.maxMessages := h.flightMsg r₀ hr₀mem j (Or.inl hph)
  unfold onConnectDone
  cases o
  · dsimp only
    apply c5_setRes_any_phase rid
      (fun r => { r with connected := true, phase := Phase.sending j })
      (fun r => rfl) (fun r => rfl) (fun r => rfl) ?_ h
    intro r hr hEq
    have hu : r = r₀ := mem_rid_unique h.ridNodup hfind hr hEq
    subst hu
    exact hlt
  · dsimp only
    apply c5_wrapperCb
    apply c5_emitError
    apply c5pre_of_inv
    exact c5_setRes_frame rid (fun r => { r with phase := Phase.idle })
      (fun r => rfl) (fun r => rfl) (fun r => rfl)
      (fun r i hEq => by simp at hEq) h
  · have ht : C5Inv (emitError rid s) := c5_emitError (c5pre_of_inv rid h)
    dsimp only
    unfold resourceSendStart
    apply c5_setRes_any_phase rid
      (fun r => { r with phase := if r.connected then Phase.sending j else Phase.connecting j })
      (fun r => rfl) (fun r => rfl) (fun r => rfl) ?_ ht
    apply hfl_transfer rid (msgShape_emitError rid) (emitError_opts rid)
    intro r hr hEq
    have hu : r = r₀ := mem_rid_unique h.ridNodup hfind hr hEq
    subst hu
    exact hlt

theorem c5_step (e : Ev) (h : C5Inv s) : C5Inv (step e s) := by
  unfold step
  cases e with
  | send now =>
    apply c5_processMessages
    refine c5_of_core_eq ?_ ?_ ?_ ?_ h <;> rfl
  | close => exact c5_closeP h
  | connectDone rid o =>
    dsimp only
    split
    · rename_i r hfind
      split
      · rename_i j hph
        exact c5_onConnectDone rid j o hfind hph h
      all_goals exact h
    · exact h
  | sendDone rid ok now =>
    dsimp only
    split
    · rename_i r hfind
      split
      · rename_i j hph
        exact c5_onSendDone rid j ok now hfind hph h
      all_goals exact h
    · exact h
  | connError rid =>
    dsimp only
    split
    · split
      · exact c5_emitError (c5pre_of_inv rid h)
      · exact h
    · exact h
  | timerFire =>
    dsimp only
    split
    · exact c5_clearRateLimit h
    · exact h
  | immediateFire now =>
    dsimp only
    split
    · apply c5_contAvailable
      refine c5_of_core_eq ?_ ?_ ?_ ?_ h <;> rfl
    · exact h
  | retryFire now =>
    dsimp only
    split
    · apply c5_processMessages
      refine c5_of_core_eq ?_ ?_ ?_ ?_ h <;> rfl
    · exact h

theorem c5_run (evs : List Ev) (h : C5Inv s) : C5Inv (run evs s) := by
  induction evs generalizing s with
  | nil => exact h
  | cons e evs ih => exact ih (c5_step e h)

theorem c5_initPool (o : Opts) (hpos : 0 < o.maxMessages) : C5Inv (initPool o) := by
  refine ⟨hpos, ?_, ?_, ?_, ?_, ?_, ?_, ?_, ?_⟩ <;> simp [initPool]

/-! ### Close is idempotent and stops dispatch -/

theorem closeP_idem : closeP (closeP s) = closeP s := by
  unfold closeP
  dsimp only
  congr 1
  rw [List.filter_filter]
  apply List.filter_congr
  intro a _
  exact Bool.and_self _

theorem contAvailable_queue_of_closed (rid : Nat) (now : Int) (h : s.closed = true) :
    (contAvailable rid now s).queue = s.queue := by
  unfold contAvailable
  rw [onAvailable_of_closed now (by simpa using h)]
  simp

theorem checkRateLimit_queue_of_closed (now : Int) (rid : Nat) (h : s.closed = true) :
    (checkRateLimit now rid s).queue = s.queue := by
  unfold checkRateLimit
  split
  · exact contAvailable_queue_of_closed rid now h
  · split
    · exact contAvailable_queue_of_closed rid now h
    · dsimp only
      split
      · simp
      · split <;> rfl

theorem onSendDone_queue_of_closed (rid i : Nat) (ok : Bool) (now : Int)
    (h : s.closed = true) : (onSendDone rid i ok now s).queue = s.queue := by
  unfold onSendDone
  dsimp only
  split
  · split
    · split
      · simp
      · rw [checkRateLimit_queue_of_closed _ _ (by simpa using h)]
        simp
    · simp
  · simp

theorem step_closed_of_closed (e : Ev) (h : s.closed = true) :
    (step e s).closed = true := by
  unfold step
  cases e with
  | send now => rw [processMessages_closed]; exact h
  | close => exact closeP_closed
  | connectDone rid o =>
    dsimp only
    split
    · split
      · rw [onConnectDone_closed]; exact h
      all_goals exact h
    · exact h
  | sendDone rid ok now =>
    dsimp only
    split
    · split
      · rw [onSendDone_closed]; exact h
      all_goals exact h
    · exact h
  | connError rid =>
    dsimp only
    split
    · split
      · rw [emitError_closed]; exact h
      · exact h
    · exact h
  | timerFire =>
    dsimp only
    split
    · rw [clearRateLimit_closed]; exact h
    · exact h
  | immediateFire now =>
    dsimp only
    split
    · rw [contAvailable_closed]; exact h
    · exact h
  | retryFire now =>
    dsimp only
    split
    · rw [processMessages_closed]; exact h
    · exact h

theorem step_queue_of_closed (e : Ev) (h : s.closed = true) :
    (step e s).queue = s.queue ++ [s.nextIdx] ∨ (step e s).queue = s.queue := by
  unfold step
  cases e with
  | send now =>
    dsimp only
    left
    rw [processMessages_of_closed _ (by simpa using h)]
  | close => right; exact closeP_queue
  | connectDone rid o =>
    dsimp only
    right
    split
    · split
      · exact onConnectDone_queue _ _ _
      all_goals rfl
    · rfl
  | sendDone rid ok now =>
    dsimp only
    right
    split
    · split
      · exact onSendDone_queue_of_closed _ _ _ _ h
      all_goals rfl
    · rfl
  | connError rid =>
    dsimp only
    right
    split
    · split
      · exact emitError_queue _
      · rfl
    · rfl
  | timerFire =>
    dsimp only
    right
    split
    · exact clearRateLimit_queue
    · rfl
  | immediateFire now =>
    dsimp only
    right
    split
    · exact contAvailable_queue_of_closed _ _ (by simpa using h)
    · rfl
  | retryFire now =>
    dsimp only
    right
    split
    · rw [processMessages_of_closed _ (by simpa using h)]
    · rfl

theorem step_send_queue_of_closed (now : Int) (h : s.closed = true) :
    (step (Ev.send now) s).queue = s.queue ++ [s.nextIdx] := by
  unfold step
  dsimp only
  rw [processMessages_of_closed _ (by simpa using h)]

/-! ### Resolution invokes the callback exactly once -/

theorem getRes_setRes (rid rid' : Nat) (f : Resource → Resource)
    (hrid : ∀ r, (f r).rid = r.rid) :
    getRes (setRes s rid f) rid'
      = (getRes s rid').map (fun r => if r.rid = rid then f r else r) := by
  unfold getRes
  rw [setRes_resources, List.find?_map]
  have hp : ((fun r => r.rid == rid') ∘ fun r => if r.rid = rid then f r else r)
      = fun r : Resource => r.rid == rid' := by
    funext r
    simp only [Function.comp]
    split <;> simp [hrid]
  rw [hp]

theorem getRes_of_resources_eq {t : PoolState} (rid : Nat)
    (h : t.resources = s.resources) : getRes t rid = getRes s rid := by
  unfold getRes
  rw [h]

theorem emitError_callLog_no_listener {rid : Nat} {r : Resource}
    (hfind : getRes s rid = some r) (hel : r.errListener = none) :
    (emitError rid s).callLog = s.callLog := by
  unfold emitError
  simp only [hfind, hel]
  split <;> simp

theorem emitError_count_of_listener {rid j : Nat} {r : Resource}
    (hfind : getRes s rid = some r) (hel : r.errListener = some j) :
    countFor (emitError rid s).callLog j
      = if countFor s.callLog j = 0 then 1 else countFor s.callLog j := by
  unfold emitError
  simp only [hfind, hel]
  rw [invokeCb_callLog_count_self]
  have hX : (setRes (if r.poolErrArmed then
      poolOnError rid (setRes s rid fun x => { x with poolErrArmed := false }) else s)
        rid fun x => { x with errListener := none }).callLog = s.callLog := by
    rw [setRes_callLog]
    split <;> simp
  rw [hX]

theorem wrapperCb_count_self (rid j : Nat) (b : Bool) :
    countFor (wrapperCb rid j b s).callLog j
      = if countFor s.callLog j = 0 then 1 else countFor s.callLog j := by
  unfold wrapperCb
  rw [invokeCb_callLog_count_self, setRes_callLog]

theorem onSendDone_count (rid j : Nat) (ok : Bool) (now : Int) {r : Resource}
    (hfind : getRes s rid = some r) (hel : r.errListener = some j)
    (hcnt : countFor s.callLog j = 0) :
    countFor (onSendDone rid j ok now s).callLog j = 1 := by
  unfold onSendDone
  dsimp only
  set f0 : Resource → Resource :=
    fun x => { x with messages := x.messages + 1, phase := Phase.idle } with hf0
  set s0 := setRes s rid f0 with hs0
  have hfind0 : getRes s0 rid = some (f0 r) := by
    rw [hs0, getRes_setRes rid rid f0 (fun x => rfl), hfind]
    simp [getRes_rid hfind]
  have hcnt0 : countFor s0.callLog j = 0 := by
    rw [hs0, setRes_callLog]; exact hcnt
  split
  · have h1 : countFor (wrapperCb rid j false s0).callLog j = 1 := by
      rw [wrapperCb_count_self, if_pos hcnt0]
    split
    · rename_i r1 hfind1
      have hel1 : r1.errListener = none := by
        have hres : (wrapperCb rid j false s0).resources
            = (setRes s0 rid fun x => { x with errListener := none }).resources := by
          unfold wrapperCb
          rw [invokeCb_resources]
        rw [getRes_of_resources_eq rid hres,
          getRes_setRes rid rid (fun x => { x with errListener := none }) (fun x => rfl),
          hfind0] at hfind1
        simp only [Option.map_some'] at hfind1
        have hridr : r.rid = rid := getRes_rid hfind
        have hridf : (f0 r).rid = rid := hridr
        rw [if_pos hridf] at hfind1
        cases hfind1
        rfl
      split
      · rw [emitError_callLog_no_listener hfind1 hel1]
        exact h1
      · rw [checkRateLimit_callLog]
        exact h1
    · exact h1
  · have hel0 : (f0 r).errListener = some j := hel
    have hE : countFor (emitError rid s0).callLog j = 1 := by
      rw [emitError_count_of_listener hfind0 hel0, if_pos hcnt0]
    rw [wrapperCb_count_self, hE]
    simp

theorem onConnectDone_count (rid j : Nat) (o : ConnOutcome) {r : Resource}
    (hno : o ≠ ConnOutcome.ok)
    (hfind : getRes s rid = some r) (hel : r.errListener = some j)
    (hcnt : countFor s.callLog j = 0) :
    countFor (onConnectDone rid j o s).callLog j = 1 := by
  unfold onConnectDone
  cases o with
  | ok => exact absurd rfl hno
  | err =>
    dsimp only
    set fI : Resource → Resource := fun x => { x with phase := Phase.idle } with hfI
    set sI := setRes s rid fI with hsI
    have hfindI : getRes sI rid = some (fI r) := by
      rw [hsI, getRes_setRes rid rid fI (fun x => rfl), hfind]
      simp [getRes_rid hfind]
    have helI : (fI r).errListener = some j := hel
    have hcntI : countFor sI.callLog j = 0 := by
      rw [hsI, setRes_callLog]; exact hcnt
    have hE : countFor (emitError rid sI).callLog j = 1 := by
      rw [emitError_count_of_listener hfindI helI, if_pos hcntI]
    rw [wrapperCb_count_self, hE]
    simp
  | closedEvt =>
    rw [resourceSendStart_callLog]
    rw [emitError_count_of_listener hfind hel, if_pos hcnt]

@[simp] theorem wrapperCb_pendingRetry (rid i : Nat) (b : Bool) :
    (wrapperCb rid i b s).pendingRetry = s.pendingRetry := by
  unfold wrapperCb; simp

theorem emitError_eq_of_no_listener_armed {rid : Nat} {r : Resource}
    (hfind : getRes s rid = some r) (hel : r.errListener = none)
    (harm : r.poolErrArmed = true) (hcl : s.closed = false) :
    emitError rid s = { setRes s rid (fun x => { x with poolErrArmed := false }) with
      conns := s.conns.erase rid
      pendingRetry := s.pendingRetry + 1 } := by
  unfold emitError poolOnError
  simp only [hfind, hel, harm, if_true]
  simp only [setRes_closed, hcl]
  rfl

theorem sendDone_exhaust_effect {rid j : Nat} {r : Resource} (now : Int)
    (hfind : getRes s rid = some r) (hph : r.phase = .sending j)
    (_hel : r.errListener = some j) (harm : r.poolErrArmed = true)
    (hcnt : countFor s.callLog j = 0) (hcl : s.closed = false)
    (hmax : s.opts.maxMessages ≤ r.messages + 1) :
    (step (Ev.sendDone rid true now) s).callLog = s.callLog ++ [(j, false)] ∧
    (step (Ev.sendDone rid true now) s).routeLog = s.routeLog ++ [(j, false)] ∧
    (step (Ev.sendDone rid true now) s).conns = s.conns.erase rid ∧
    (step (Ev.sendDone rid true now) s).pendingRetry = s.pendingRetry + 1 ∧
    (∀ r', getRes (step (Ev.sendDone rid true now) s) rid = some r' →
      r'.errListener = none) := by
  have hridr : r.rid = rid := getRes_rid hfind
  have hstep : step (Ev.sendDone rid true now) s = onSendDone rid j true now s := by
    unfold step
    simp only [hfind, hph]
  rw [hstep]
  unfold onSendDone
  dsimp only
  set f0 : Resource → Resource :=
    fun x => { x with messages := x.messages + 1, phase := Phase.idle } with hf0
  set s0 := setRes s rid f0 with hs0
  set s1 := wrapperCb rid j false s0 with hs1
  set r1 : Resource :=
    { r with messages := r.messages + 1, phase := Phase.idle, errListener := none } with hr1
  have hfind1 : getRes s1 rid = some r1 := by
    have hres : s1.resources
        = (setRes s0 rid fun x => { x with errListener := none }).resources := by
      rw [hs1]
      unfold wrapperCb
      rw [invokeCb_resources]
    rw [getRes_of_resources_eq rid hres,
      getRes_setRes rid rid (fun x => { x with errListener := none }) (fun x => rfl),
      hs0, getRes_setRes rid rid f0 (fun x => rfl), hfind]
    simp only [Option.map_some']
    rw [if_pos hridr]
    have hridf : (f0 r).rid = rid := hridr
    rw [if_pos hridf]
  have hcall1 : s1.callLog = s.callLog ++ [(j, false)] := by
    rw [hs1]
    unfold wrapperCb
    rw [invokeCb_callLog]
    rw [setRes_callLog, hs0, setRes_callLog]
    rw [if_pos hcnt]
  have hroute1 : s1.routeLog = s.routeLog ++ [(j, false)] := by
    rw [hs1]
    unfold wrapperCb
    rw [invokeCb_routeLog, setRes_routeLog, hs0, setRes_routeLog]
  have hexh : s1.opts.maxMessages ≤ r1.messages := by
    have hop : s1.opts = s.opts := by rw [hs1, wrapperCb_opts, hs0, setRes_opts]
    rw [hop]
    show s.opts.maxMessages ≤ r.messages + 1
    exact hmax
  rw [if_pos (rfl : true = true), hfind1]
  dsimp only
  rw [if_pos hexh]
  have hel1 : r1.errListener = none := rfl
  have harm1 : r1.poolErrArmed = true := harm
  have hcl1 : s1.closed = false := by
    rw [hs1, wrapperCb_closed, hs0, setRes_closed]
    exact hcl
  rw [emitError_eq_of_no_listener_armed hfind1 hel1 harm1 hcl1]
  refine ⟨?_, ?_, ?_, ?_, ?_⟩
  · show (setRes s1 rid (fun x => { x with poolErrArmed := false })).callLog
      = s.callLog ++ [(j, false)]
    rw [setRes_callLog]
    exact hcall1
  · show (setRes s1 rid (fun x => { x with poolErrArmed := false })).routeLog
      = s.routeLog ++ [(j, false)]
    rw [setRes_routeLog]
    exact hroute1
  · show s1.conns.erase rid = s.conns.erase rid
    rw [hs1, wrapperCb_conns, hs0, setRes_conns]
  · show s1.pendingRetry + 1 = s.pendingRetry + 1
    rw [hs1, wrapperCb_pendingRetry, hs0, setRes_pendingRetry]
  · intro r' hr'
    have hres2 : ({ setRes s1 rid (fun x => { x with poolErrArmed := false }) with
        conns := s1.conns.erase rid
        pendingRetry := s1.pendingRetry + 1 } : PoolState).resources
          = (setRes s1 rid fun x => { x with poolErrArmed := false }).resources := rfl
    rw [getRes_of_resources_eq rid hres2,
      getRes_setRes rid rid (fun x => { x with poolErrArmed := false }) (fun x => rfl),
      hfind1] at hr'
    simp only [Option.map_some'] at hr'
    have hridr1 : r1.rid = rid := hridr
    rw [if_pos hridr1] at hr'
    cases hr'
    rfl

theorem unref_of_cleared {j rid : Nat}
    (huniq : ∀ r' ∈ s.resources, refsIdx r' j → r'.rid = rid)
    {t : PoolState}
    (hres : ∀ r' ∈ t.resources, (r'.rid ≠ rid ∧ r' ∈ s.resources) ∨ ¬ refsIdx r' j) :
    Unref j t := by
  intro r' hr'
  rcases hres r' hr' with ⟨hne, hmem⟩ | h
  · exact fun href => hne (huniq r' hmem href)
  · exact h

theorem wrapperCb_setRes_resources (rid j : Nat) (b : Bool) (f : Resource → Resource)
    (hrid : ∀ x, (f x).rid = x.rid) :
    (wrapperCb rid j b (setRes s rid f)).resources
      = s.resources.map
          (fun x => if x.rid = rid then { f x with errListener := none } else x) := by
  unfold wrapperCb
  rw [invokeCb_resources, setRes_resources, setRes_resources, List.map_map]
  apply List.map_congr_left
  intro x _
  simp only [Function.comp]
  by_cases hc : x.rid = rid
  · rw [if_pos hc, if_pos (show (f x).rid = rid by rw [hrid]; exact hc), if_pos hc]
  · rw [if_neg hc, if_neg hc, if_neg hc]

theorem emitError_resources_shape (rid : Nat) :
    ∀ r' ∈ (emitError rid s).resources, ∃ r0 ∈ s.resources,
      r'.rid = r0.rid ∧ r'.phase = r0.phase ∧
      (r'.errListener = r0.errListener ∨ r'.errListener = none) := by
  intro r' hr'
  unfold emitError at hr'
  rcases hg : getRes s rid with _ | r
  · simp only [hg] at hr'
    exact ⟨r', hr', rfl, rfl, Or.inl rfl⟩
  · simp only [hg] at hr'
    set X := if r.poolErrArmed then
        poolOnError rid (setRes s rid fun x => { x with poolErrArmed := false }) else s
      with hX
    have hXres : ∀ r'' ∈ X.resources, ∃ r0 ∈ s.resources,
        r''.rid = r0.rid ∧ r''.phase = r0.phase ∧ r''.errListener = r0.errListener := by
      intro r'' hr''
      rw [hX] at hr''
      split at hr''
      · rw [poolOnError_resources, setRes_resources] at hr''
        rcases List.mem_map.1 hr'' with ⟨r0, hr0, hEq⟩
        subst hEq
        refine ⟨r0, hr0, ?_, ?_, ?_⟩ <;> split <;> rfl
      · exact ⟨r'', hr'', rfl, rfl, rfl⟩
    rcases hl : r.errListener with _ | i
    · simp only [hl] at hr'
      rcases hXres r' hr' with ⟨r0, hr0, e1, e2, e3⟩
      exact ⟨r0, hr0, e1, e2, Or.inl e3⟩
    · simp only [hl] at hr'
      rw [invokeCb_resources, setRes_resources] at hr'
      rcases List.mem_map.1 hr' with ⟨r'', hr'', hEq⟩
      subst hEq
      rcases hXres r'' hr'' with ⟨r0, hr0, e1, e2, e3⟩
      by_cases hc : r''.rid = rid
      · rw [if_pos hc]
        exact ⟨r0, hr0, e1, e2, Or.inr rfl⟩
      · rw [if_neg hc]
        exact ⟨r0, hr0, e1, e2, Or.inl e3⟩

theorem retired_after_sendDone {rid j : Nat} {r : Resource} (ok : Bool) (now : Int)
    (hfind : getRes s rid = some r) (hph : r.phase = .sending j)
    (hn : j < s.nextIdx) (hq : j ∉ s.queue)
    (huniq : ∀ r' ∈ s.resources, refsIdx r' j → r'.rid = rid) :
    Retired (step (Ev.sendDone rid ok now) s) j := by
  have hstep : step (Ev.sendDone rid ok now) s = onSendDone rid j ok now s := by
    unfold step
    simp only [hfind, hph]
  rw [hstep]
  unfold onSendDone
  dsimp only
  set f0 : Resource → Resource :=
    fun x => { x with messages := x.messages + 1, phase := Phase.idle } with hf0
  set s0 := setRes s rid f0 with hs0
  split
  · -- success branch
    set s1 := wrapperCb rid j false s0 with hs1
    have hu1 : Unref j s1 := by
      apply unref_of_cleared huniq
      intro r' hr'
      rw [hs1, hs0, wrapperCb_setRes_resources rid j false f0 (fun x => rfl)] at hr'
      rcases List.mem_map.1 hr' with ⟨x, hx, hEq⟩
      subst hEq
      by_cases hc : x.rid = rid
      · rw [if_pos hc]
        right
        simp [refsIdx]
      · rw [if_neg hc]
        left
        exact ⟨hc, hx⟩
    have hq1 : j ∉ s1.queue := by
      rw [hs1, wrapperCb_queue, hs0, setRes_queue]
      exact hq
    have hn1 : j < s1.nextIdx := by
      rw [hs1, wrapperCb_nextIdx, hs0, setRes_nextIdx]
      exact hn
    split
    · split
      · rcases emitError_frozen rid hu1 with ⟨hu2, _, _⟩
        exact ⟨by simpa using hn1, by simpa [emitError_queue] using hq1, hu2⟩
      · rcases checkRateLimit_frozen now rid (Or.inl hq1) hu1 with ⟨hu2, hq2⟩
        refine ⟨by simpa using hn1, ?_, hu2⟩
        rw [hq2]
        exact hq1
    · exact ⟨hn1, hq1, hu1⟩
  · -- error branch
    set sE := emitError rid s0 with hsE
    have hu2 : Unref j (wrapperCb rid j true sE) := by
      apply unref_of_cleared huniq
      intro r' hr'
      unfold wrapperCb at hr'
      rw [invokeCb_resources, setRes_resources] at hr'
      rcases List.mem_map.1 hr' with ⟨r'', hr'', hEq⟩
      subst hEq
      have hshape := emitError_resources_shape (s := s0) rid r'' (by rw [← hsE]; exact hr'')
      rcases hshape with ⟨rE, hrE, e1, e2, e3⟩
      rw [hs0, setRes_resources] at hrE
      rcases List.mem_map.1 hrE with ⟨r3, hr3, hEq3⟩
      subst hEq3
      by_cases hc3 : r3.rid = rid
      · -- descendant of the resolved resource: phase is idle
        right
        rw [if_pos hc3] at e1 e2
        by_cases hc'' : r''.rid = rid
        · rw [if_pos hc'']
          intro href
          rcases href with hp | hp | hp
          · rw [show ({ r'' with errListener := none } : Resource).phase = r''.phase
              from rfl, e2] at hp
            exact absurd hp (by simp)
          · rw [show ({ r'' with errListener := none } : Resource).phase = r''.phase
              from rfl, e2] at hp
            exact absurd hp (by simp)
          · exact absurd hp (by simp)
        · exact absurd (e1.trans (show (f0 r3).rid = rid from hc3)) hc''
      · -- untouched resource: it never referenced j
        right
        rw [if_neg hc3] at e1 e2 e3
        have hnr3 : ¬ refsIdx r3 j := fun href => hc3 (huniq r3 hr3 href)
        have hc'' : r''.rid ≠ rid := by
          rw [e1]
          exact hc3
        rw [if_neg hc'']
        intro href
        apply hnr3
        rcases href with hp | hp | hp
        · exact Or.inl (e2 ▸ hp)
        · exact Or.inr (Or.inl (e2 ▸ hp))
        · rcases e3 with e3 | e3
          · exact Or.inr (Or.inr (e3 ▸ hp))
          · rw [e3] at hp
            exact absurd hp (by simp)
    refine ⟨?_, ?_, hu2⟩
    · rw [wrapperCb_nextIdx, hsE, emitError_nextIdx, hs0, setRes_nextIdx]
      exact hn
    · rw [wrapperCb_queue, hsE, emitError_queue, hs0, setRes_queue]
      exact hq

/-! ### The `_checkRateLimit` and `_clearRateLimit` characterisation -/

theorem checkRateLimit_no_limit (now : Int) (rid : Nat)
    (h : s.opts.rateLimit = none) :
    checkRateLimit now rid s = contAvailable rid now s := by
  unfold checkRateLimit
  simp only [h]

theorem checkRateLimit_below (now : Int) (rid limit : Nat)
    (h : s.opts.rateLimit = some limit) (hlt : s.rl.counter < limit) :
    checkRateLimit now rid s = contAvailable rid now s := by
  unfold checkRateLimit
  simp only [h]
  rw [if_pos hlt]

theorem checkRateLimit_park_clear (now : Int) (rid limit : Nat)
    (h : s.opts.rateLimit = some limit) (hge : ¬ s.rl.counter < limit)
    (hold : s.rl.checkpoint ≤ now - 1000) :
    checkRateLimit now rid s
      = clearRateLimit { s with rl := { s.rl with waiting := s.rl.waiting ++ [rid] } } := by
  unfold checkRateLimit
  simp only [h]
  rw [if_neg hge]
  rw [if_pos hold]

theorem checkRateLimit_park_arm (now : Int) (rid limit : Nat)
    (h : s.opts.rateLimit = some limit) (hge : ¬ s.rl.counter < limit)
    (hnew : ¬ s.rl.checkpoint ≤ now - 1000) (hto : s.rl.timeoutHandle = none) :
    checkRateLimit now rid s
      = { s with rl := { s.rl with
            waiting := s.rl.waiting ++ [rid]
            timeoutHandle := some (1000 - (now - s.rl.checkpoint))
            timerLive := true
            checkpoint := now } } := by
  unfold checkRateLimit
  simp only [h]
  rw [if_neg hge]
  rw [if_neg hnew, if_pos (by rw [hto]; rfl)]

theorem checkRateLimit_park_wait (now : Int) (rid limit : Nat) (h0 : Int)
    (h : s.opts.rateLimit = some limit) (hge : ¬ s.rl.counter < limit)
    (hnew : ¬ s.rl.checkpoint ≤ now - 1000) (hto : s.rl.timeoutHandle = some h0) :
    checkRateLimit now rid s
      = { s with rl := { s.rl with waiting := s.rl.waiting ++ [rid] } } := by
  unfold checkRateLimit
  simp only [h]
  rw [if_neg hge]
  rw [if_neg hnew, if_neg (by rw [hto]; simp)]

theorem clearRateLimit_eq :
    clearRateLimit s
      = { s with
          rl := { s.rl with
                  timerLive := false
                  timeoutHandle := none
                  counter := 0
                  checkpoint := 0
                  waiting := [] }
          immediates := s.immediates ++ s.rl.waiting } := rfl

theorem step_timerFire (h : s.rl.timerLive = true) :
    step Ev.timerFire s = clearRateLimit s := by
  unfold step
  simp only [h]
  rfl

theorem step_immediateFire (rid : Nat) (rest : List Nat) (now : Int)
    (h : s.immediates = rid :: rest) :
    step (Ev.immediateFire now) s = contAvailable rid now { s with immediates := rest } := by
  unfold step
  simp only [h]

/-! ### Store and object lemmas for the constructor -/

theorem storeGet_append_last (st : Store) (o : JObj) :
    storeGet (st ++ [o]) st.length = o := by
  unfold storeGet
  induction st with
  | nil => rfl
  | cons x tl ih => simp [ih]

theorem storeSet_append_last (st : Store) (o o' : JObj) :
    storeSet (st ++ [o]) st.length o' = st ++ [o'] := by
  unfold storeSet
  induction st with
  | nil => rfl
  | cons x tl ih => simp [ih]

theorem storeGet_append_lt (st : Store) (o : JObj) (j : Nat) (hj : j < st.length) :
    storeGet (st ++ [o]) j = storeGet st j := by
  unfold storeGet
  induction st generalizing j with
  | nil => simp at hj
  | cons x tl ih =>
    cases j with
    | zero => rfl
    | succ j' =>
      simp only [List.cons_append, List.getD_cons_succ]
      exact ih j' (by simpa using hj)

theorem objHas_eq_isSome (o : JObj) (k : String) :
    objHas o k = (objGet o k).isSome := by
  unfold objHas objGet
  cases o.find? (fun kv => kv.1 == k) <;> rfl

theorem objGet_cons (kv : String × JVal) (o : JObj) (k : String) :
    objGet (kv :: o) k = if kv.1 == k then some kv.2 else objGet o k := by
  unfold objGet
  rw [List.find?_cons]
  by_cases h : kv.1 == k
  · simp [h]
  · simp [h]

theorem objGet_append (o₁ o₂ : JObj) (k : String) :
    objGet (o₁ ++ o₂) k
      = match objGet o₁ k with
        | some v => some v
        | none => objGet o₂ k := by
  induction o₁ with
  | nil => simp [objGet]
  | cons kv tl ih =>
    rw [List.cons_append, objGet_cons, objGet_cons]
    by_cases h : kv.1 == k
    · simp [h]
    · simp [h, ih]

theorem objGet_objSet_ne (o : JObj) (k k' : String) (v : JVal) (h : k' ≠ k) :
    objGet (objSet o k v) k' = objGet o k' := by
  unfold objSet
  split
  · unfold objGet
    rw [List.find?_map]
    have hp : ((fun kv : String × JVal => kv.1 == k') ∘
        fun kv => if kv.1 = k then (k, v) else kv)
          = fun kv : String × JVal => kv.1 == k' := by
      funext kv
      simp only [Function.comp]
      split
      · rename_i hkv
        simp only [hkv]
      · rfl
    rw [hp]
    cases hf : o.find? (fun kv => kv.1 == k') with
    | none => rfl
    | some kv0 =>
      have hkv0 := List.find?_some hf
      have hne : ¬ kv0.1 = k := by
        intro hcontra
        rw [hcontra] at hkv0
        have hkk : k = k' := by simpa using hkv0
        exact h hkk.symm
      simp [hne]
  · rw [objGet_append]
    cases hf : objGet o k' with
    | none =>
      have hcond : ¬ ((k == k') = true) := by
        simp only [beq_iff_eq]
        intro hcontra
        exact absurd hcontra.symm h
      rw [objGet_cons, if_neg hcond]
      rfl
    | some v0 => rfl

theorem objHas_objSet_ne (o : JObj) (k k' : String) (v : JVal) (h : k' ≠ k) :
    objHas (objSet o k v) k' = objHas o k' := by
  rw [objHas_eq_isSome, objHas_eq_isSome, objGet_objSet_ne o k k' v h]

theorem mergeStep_present (o : JObj) (kv : String × JVal) (k : String)
    (h : objHas o k = true) :
    objHas (if objHas o kv.1 then o else o ++ [kv]) k = true ∧
      objGet (if objHas o kv.1 then o else o ++ [kv]) k = objGet o k := by
  split
  · exact ⟨h, rfl⟩
  · rename_i habs
    constructor
    · rw [objHas_eq_isSome, objGet_append]
      rw [objHas_eq_isSome] at h
      rcases hf : objGet o k with _ | v0
      · rw [hf] at h; simp at h
      · simp
    · rw [objGet_append]
      rw [objHas_eq_isSome] at h
      rcases hf : objGet o k with _ | v0
      · rw [hf] at h; simp at h
      · simp

theorem mergeWellknown_present (o hd : JObj) (k : String) (h : objHas o k = true) :
    objGet (mergeWellknown o hd) k = objGet o k := by
  unfold mergeWellknown
  induction hd generalizing o with
  | nil => rfl
  | cons kv tl ih =>
    rw [List.foldl_cons]
    rcases mergeStep_present o kv k h with ⟨h1, h2⟩
    rw [ih _ h1, h2]

theorem mergeWellknown_absent (o hd : JObj) (k : String) (v : JVal)
    (h : objHas o k = false) (hv : objGet hd k = some v) :
    objGet (mergeWellknown o hd) k = some v := by
  unfold mergeWellknown
  induction hd generalizing o with
  | nil => simp [objGet] at hv
  | cons kv tl ih =>
    rw [List.foldl_cons]
    rw [objGet_cons] at hv
    by_cases hk : (kv.1 == k) = true
    · rw [if_pos hk] at hv
      have hkk : kv.1 = k := by simpa using hk
      have habs : objHas o kv.1 = false := by rw [hkk]; exact h
      rw [if_neg (by rw [habs]; simp)]
      have hget : objGet (o ++ [kv]) k = some v := by
        rw [objGet_append]
        cases hf : objGet o k with
        | none =>
          rw [objGet_cons, if_pos hk]
          exact hv
        | some v0 =>
          exfalso
          rw [objHas_eq_isSome, hf] at h
          simp at h
      have hhas : objHas (o ++ [kv]) k = true := by
        rw [objHas_eq_isSome, hget]
        rfl
      have hpres := mergeWellknown_present (o ++ [kv]) tl k hhas
      unfold mergeWellknown at hpres
      rw [hpres, hget]
    · rw [if_neg hk] at hv
      split
      · exact ih o h hv
      · apply ih
        · rw [objHas_eq_isSome, objGet_append]
          cases hf : objGet o k with
          | none =>
            rw [objGet_cons, if_neg hk]
            rfl
          | some v0 =>
            exfalso
            rw [objHas_eq_isSome, hf] at h
            simp at h
        · exact hv

/-! ### The claims -/

/-- C1 (amended): every submission's callback fires at most once — the
single-run guard of `SMTPPool.prototype.send` — and a submission whose
dispatched send or failed connect actually resolves has its callback fire
exactly once at that resolution; but the callback does not fire in every
execution: a submission still queued when the pool closes never reaches its
callback (see the counterexample), so "exactly once, never zero times" does
not hold unconditionally. -/
theorem claim_C1_callback_at_most_once :
    (∀ (o : Opts) (evs : List Ev) (i : Nat),
        countFor (run evs (initPool o)).callLog i ≤ 1) ∧
    (∀ (s : PoolState) (rid i : Nat) (ok : Bool) (now : Int),
        InFlightSending s rid i →
        countFor (step (Ev.sendDone rid ok now) s).callLog i = 1) ∧
    (∀ (s : PoolState) (rid i : Nat) (o : ConnOutcome),
        o ≠ ConnOutcome.ok → InFlightConnecting s rid i →
        countFor (step (Ev.connectDone rid o) s).callLog i = 1) := by
  refine ⟨?_, ?_, ?_⟩
  · intro o evs i
    exact callsLe_run evs (callsLe_initPool o) i
  · intro s rid i ok now hfl
    rcases hfl with ⟨r, hfind, hph, hel, hcnt⟩
    have hstep : step (Ev.sendDone rid ok now) s = onSendDone rid i ok now s := by
      unfold step
      simp only [hfind, hph]
    rw [hstep]
    exact onSendDone_count rid i ok now hfind hel hcnt
  · intro s rid i o hno hfl
    rcases hfl with ⟨r, hfind, hph, hel, hcnt⟩
    have hstep : step (Ev.connectDone rid o) s = onConnectDone rid i o s := by
      unfold step
      simp only [hfind, hph]
    rw [hstep]
    exact onConnectDone_count rid i o hno hfind hel hcnt

/-- C1 witness: concrete resolutions.  In `c3State` the pending send of
submission 0 resolves to exactly one callback entry; in `c1cState` a failed
connect resolves submission 0 to exactly one entry; and a fresh trace keeps
every count at most one. -/
theorem claim_C1_callback_at_most_once_witness :
    getRes c3State 1 = some c3Res ∧ c3Res.phase = Phase.sending 0 ∧
    c3Res.errListener = some 0 ∧ countFor c3State.callLog 0 = 0 ∧
    countFor (step (Ev.sendDone 1 true 0) c3State).callLog 0 = 1 ∧
    getRes c1cState 1 = some c1cRes ∧ c1cRes.phase = Phase.connecting 0 ∧
    c1cRes.errListener = some 0 ∧ countFor c1cState.callLog 0 = 0 ∧
    countFor (step (Ev.connectDone 1 ConnOutcome.err) c1cState).callLog 0 = 1 ∧
    countFor (run [Ev.send 0] (initPool optsOne)).callLog 0 ≤ 1 :=
  ⟨by decide, by decide, by decide, by decide,
    claim_C1_callback_at_most_once.2.1 c3State 1 0 true 0
      ⟨c3Res, by decide, by decide, by decide, by decide⟩,
    by decide, by decide, by decide, by decide,
    claim_C1_callback_at_most_once.2.2 c1cState 1 0 ConnOutcome.err
      (by decide) ⟨c1cRes, by decide, by decide, by decide, by decide⟩,
    claim_C1_callback_at_most_once.1 optsOne [Ev.send 0] 0⟩

/-- C1 counterexample: in `c1State` (two submissions on a one-slot pool,
`close` while the second is queued, then the first connects and completes)
the first submission's callback fired once, but the second is still queued,
its callback never fired, and no continuation of the system can ever fire
it: the callback fires zero times, refuting unconditional exactly-once. -/
theorem claim_C1_callback_zero_times_counterexample :
    countFor c1State.callLog 0 = 1 ∧
    (1 : Nat) ∈ c1State.queue ∧
    countFor c1State.callLog 1 = 0 ∧
    NeverFires c1State 1 := by
  refine ⟨by decide, by decide, by decide, ?_⟩
  intro evs
  have hstuck : StuckQueued c1State 1 := by
    unfold StuckQueued
    refine ⟨by decide, by decide, by decide, ?_⟩
    decide
  exact (stuck_run evs hstuck).2

/-- C2: contrary to the spec, `SMTPPool.prototype.close` silently drops
queued submissions: in `c2State` (two submissions on a one-slot pool, then
`close` while the second is still queued) the pool is closed, submission 1
is still queued, its callback has never been invoked, and no continuation
of the system ever invokes it — the claimed ClosedPoolError report to each
queued caller never happens. -/
theorem claim_C2_close_drops_queued_callbacks :
    c2State.closed = true ∧
    (1 : Nat) ∈ c2State.queue ∧
    countFor c2State.callLog 1 = 0 ∧
    NeverFires c2State 1 := by
  refine ⟨by decide, by decide, by decide, ?_⟩
  intro evs
  have hstuck : StuckQueued c2State 1 := by
    unfold StuckQueued
    refine ⟨by decide, by decide, by decide, ?_⟩
    decide
  exact (stuck_run evs hstuck).2

/-- C3: a send that completes successfully on a resource whose message
counter thereby reaches `maxMessages` reports success to its caller (one
`(j, false)` entry in both the raw route log and the guarded call log),
while the exhaustion is surfaced only through the resource's error channel:
the pool-level once-listener removes the resource from `_connections` and
schedules a replacement dispatch, and the per-send listener has been
detached, so the exhaustion error never reaches that submission's
callback. -/
theorem claim_C3_exhaustion_reports_success :
    ∀ (s : PoolState) (rid j : Nat) (now : Int) (r : Resource),
      getRes s rid = some r → r.phase = Phase.sending j →
      r.errListener = some j → r.poolErrArmed = true →
      countFor s.callLog j = 0 → s.closed = false →
      s.opts.maxMessages ≤ r.messages + 1 →
      (step (Ev.sendDone rid true now) s).callLog = s.callLog ++ [(j, false)] ∧
      (step (Ev.sendDone rid true now) s).routeLog = s.routeLog ++ [(j, false)] ∧
      (step (Ev.sendDone rid true now) s).conns = s.conns.erase rid ∧
      (step (Ev.sendDone rid true now) s).pendingRetry = s.pendingRetry + 1 ∧
      (∀ r', getRes (step (Ev.sendDone rid true now) s) rid = some r' →
        r'.errListener = none) :=
  fun _s _rid _j now _r hfind hph hel harm hcnt hcl hmax =>
    sendDone_exhaust_effect now hfind hph hel harm hcnt hcl hmax

/-- C3 witness: in `c3State` (message budget one, submission 0 in flight)
the successful completion reports success to submission 0, removes resource
1 from the pool and schedules the replacement dispatch. -/
theorem claim_C3_exhaustion_reports_success_witness :
    getRes c3State 1 = some c3Res ∧ c3Res.phase = Phase.sending 0 ∧
    c3Res.errListener = some 0 ∧ c3Res.poolErrArmed = true ∧
    countFor c3State.callLog 0 = 0 ∧ c3State.closed = false ∧
    c3State.opts.maxMessages ≤ c3Res.messages + 1 ∧
    (step (Ev.sendDone 1 true 0) c3State).callLog = c3State.callLog ++ [(0, false)] ∧
    (step (Ev.sendDone 1 true 0) c3State).routeLog = c3State.routeLog ++ [(0, false)] ∧
    (step (Ev.sendDone 1 true 0) c3State).conns = c3State.conns.erase 1 ∧
    (step (Ev.sendDone 1 true 0) c3State).pendingRetry = c3State.pendingRetry + 1 :=
  ⟨by decide, by decide, by decide, by decide, by decide, by decide, by decide,
    (claim_C3_exhaustion_reports_success c3State 1 0 0 c3Res (by decide) (by decide)
      (by decide) (by decide) (by decide) (by decide) (by decide)).1,
    (claim_C3_exhaustion_reports_success c3State 1 0 0 c3Res (by decide) (by decide)
      (by decide) (by decide) (by decide) (by decide) (by decide)).2.1,
    (claim_C3_exhaustion_reports_success c3State 1 0 0 c3Res (by decide) (by decide)
      (by decide) (by decide) (by decide) (by decide) (by decide)).2.2.1,
    (claim_C3_exhaustion_reports_success c3State 1 0 0 c3Res (by decide) (by decide)
      (by decide) (by decide) (by decide) (by decide) (by decide)).2.2.2.1⟩

/-- C4: on send completion (success or error) the Dispatcher's per-send
one-shot error listener is detached before the submission's callback runs:
after `sendDone` resolves submission `j`, the resolving resource no longer
references `j`, and no continuation of the system ever appends another
entry for `j` to the raw route log or the guarded call log — a later
resource error is never routed to the already-resolved submission. -/
theorem claim_C4_listener_detached_no_double_report :
    ∀ (s : PoolState) (rid j : Nat) (ok : Bool) (now : Int) (r : Resource),
      getRes s rid = some r → r.phase = Phase.sending j →
      j < s.nextIdx → j ∉ s.queue →
      (∀ r' ∈ s.resources, refsIdx r' j → r'.rid = rid) →
      (∀ r', getRes (step (Ev.sendDone rid ok now) s) rid = some r' →
          ¬ refsIdx r' j) ∧
      (∀ evs, countFor (run evs (step (Ev.sendDone rid ok now) s)).routeLog j
          = countFor (step (Ev.sendDone rid ok now) s).routeLog j) ∧
      (∀ evs, countFor (run evs (step (Ev.sendDone rid ok now) s)).callLog j
          = countFor (step (Ev.sendDone rid ok now) s).callLog j) := by
  intro s rid j ok now r hfind hph hn hq huniq
  have hret := retired_after_sendDone ok now hfind hph hn hq huniq
  have hcopy : Retired (step (Ev.sendDone rid ok now) s) j := hret
  rcases hcopy with ⟨-, -, hunref⟩
  refine ⟨?_, ?_, ?_⟩
  · intro r' hfind'
    exact hunref r' (getRes_mem hfind')
  · intro evs
    exact (retired_run evs hret).2.2
  · intro evs
    exact (retired_run evs hret).2.1

/-- C4 witness: after submission 0 resolves in `c3State`, a subsequent
spontaneous connection error on the same resource adds nothing for
submission 0 to either log. -/
theorem claim_C4_listener_detached_no_double_report_witness :
    getRes c3State 1 = some c3Res ∧ c3Res.phase = Phase.sending 0 ∧
    0 < c3State.nextIdx ∧ c3State.queue = [] ∧
    countFor (run [Ev.connError 1] (step (Ev.sendDone 1 true 0) c3State)).routeLog 0
      = countFor (step (Ev.sendDone 1 true 0) c3State).routeLog 0 ∧
    countFor (run [Ev.connError 1] (step (Ev.sendDone 1 true 0) c3State)).callLog 0
      = countFor (step (Ev.sendDone 1 true 0) c3State).callLog 0 :=
  ⟨by decide, by decide, by decide, by decide,
    (claim_C4_listener_detached_no_double_report c3State 1 0 true 0 c3Res
      (by decide) (by decide) (by decide) (by decide) (by decide)).2.1 [Ev.connError 1],
    (claim_C4_listener_detached_no_double_report c3State 1 0 true 0 c3Res
      (by decide) (by decide) (by decide) (by decide) (by decide)).2.2 [Ev.connError 1]⟩

/-- C5: with a positive message budget, in every reachable state every
resource ever created satisfies `messages ≤ maxMessages`, and every
resource still pooled in `_connections` satisfies the strict bound
`messages < maxMessages` — a resource that reaches the cap has been removed
from the pool and can never receive another submission. -/
theorem claim_C5_messages_bounded :
    ∀ (o : Opts) (evs : List Ev), 0 < o.maxMessages →
      messagesBounded (run evs (initPool o)) = true := by
  intro o evs hpos
  have h := c5_run evs (c5_initPool o hpos)
  unfold messagesBounded
  rw [Bool.and_eq_true]
  constructor
  · rw [List.all_eq_true]
    intro r hr
    simpa using h.allMsg r hr
  · rw [List.all_eq_true]
    intro rid hrid
    rw [List.all_eq_true]
    intro r hr
    rcases List.mem_filter.1 hr with ⟨hmem, hbeq⟩
    have hridr : r.rid = rid := by simpa using hbeq
    simpa using h.connMsg rid hrid r hmem hridr

/-- C5 witness: a one-message budget trace in which the only resource
reaches the cap keeps the bound. -/
theorem claim_C5_messages_bounded_witness :
    0 < optsMm1.maxMessages ∧
    messagesBounded (run [Ev.send 0, Ev.connectDone 1 ConnOutcome.ok,
      Ev.sendDone 1 true 0] (initPool optsMm1)) = true :=
  ⟨by decide, claim_C5_messages_bounded optsMm1
    [Ev.send 0, Ev.connectDone 1 ConnOutcome.ok, Ev.sendDone 1 true 0] (by decide)⟩

/-- C6: the rate limiter.  `_checkRateLimit` admits the continuation
immediately when no `rateLimit` is set or the window counter is below the
limit; at the limit it appends the continuation to the parked FIFO and
clears the window immediately when at least 1000 ms have passed since the
checkpoint, arms a single timer for the remainder of the second when none
is armed, and otherwise only appends.  `_clearRateLimit` resets the counter
and checkpoint, cancels the timer and moves all parked continuations to the
deferred (`setImmediate`) queue in FIFO order; the armed timer performs
exactly that clear, and each deferred slot resumes the head parked
continuation, preserving the order. -/
theorem claim_C6_rate_limiter :
    (∀ (s : PoolState) (now : Int) (rid : Nat), s.opts.rateLimit = none →
        checkRateLimit now rid s = contAvailable rid now s) ∧
    (∀ (s : PoolState) (now : Int) (rid limit : Nat),
        s.opts.rateLimit = some limit → s.rl.counter < limit →
        checkRateLimit now rid s = contAvailable rid now s) ∧
    (∀ (s : PoolState) (now : Int) (rid limit : Nat),
        s.opts.rateLimit = some limit → ¬ s.rl.counter < limit →
        s.rl.checkpoint ≤ now - 1000 →
        checkRateLimit now rid s
          = clearRateLimit { s with
              rl := { s.rl with waiting := s.rl.waiting ++ [rid] } }) ∧
    (∀ (s : PoolState) (now : Int) (rid limit : Nat),
        s.opts.rateLimit = some limit → ¬ s.rl.counter < limit →
        ¬ s.rl.checkpoint ≤ now - 1000 → s.rl.timeoutHandle = none →
        checkRateLimit now rid s
          = { s with rl := { s.rl with
                waiting := s.rl.waiting ++ [rid]
                timeoutHandle := some (1000 - (now - s.rl.checkpoint))
                timerLive := true
                checkpoint := now } }) ∧
    (∀ (s : PoolState) (now : Int) (rid limit : Nat) (h0 : Int),
        s.opts.rateLimit = some limit → ¬ s.rl.counter < limit →
        ¬ s.rl.checkpoint ≤ now - 1000 → s.rl.timeoutHandle = some h0 →
        checkRateLimit now rid s
          = { s with rl := { s.rl with waiting := s.rl.waiting ++ [rid] } }) ∧
    (∀ s : PoolState,
        clearRateLimit s
          = { s with
              rl := { s.rl with
                      timerLive := false
                      timeoutHandle := none
                      counter := 0
                      checkpoint := 0
                      waiting := [] }
              immediates := s.immediates ++ s.rl.waiting }) ∧
    (∀ s : PoolState, s.rl.timerLive = true →
        step Ev.timerFire s = clearRateLimit s) ∧
    (∀ (s : PoolState) (rid : Nat) (rest : List Nat) (now : Int),
        s.immediates = rid :: rest →
        step (Ev.immediateFire now) s
          = contAvailable rid now { s with immediates := rest }) :=
  ⟨fun _s now rid h => checkRateLimit_no_limit now rid h,
   fun _s now rid limit h hlt => checkRateLimit_below now rid limit h hlt,
   fun _s now rid limit h hge hold => checkRateLimit_park_clear now rid limit h hge hold,
   fun _s now rid limit h hge hnew hto =>
     checkRateLimit_park_arm now rid limit h hge hnew hto,
   fun _s now rid limit h0 h hge hnew hto =>
     checkRateLimit_park_wait now rid limit h0 h hge hnew hto,
   fun _s => clearRateLimit_eq,
   fun _s h => step_timerFire h,
   fun _s rid rest now h => step_immediateFire rid rest now h⟩

/-- C6 witness: each branch of the rate limiter at a concrete state — no
limit, below the limit, window clear, timer armed, timer already running —
plus a concrete timer fire and a deferred-slot fire. -/
theorem claim_C6_rate_limiter_witness :
    checkRateLimit 2000 4 (initPool optsOne) = contAvailable 4 2000 (initPool optsOne) ∧
    checkRateLimit 2000 4 rlBelow = contAvailable 4 2000 rlBelow ∧
    checkRateLimit 2000 4 rlClear
      = clearRateLimit { rlClear with
          rl := { rlClear.rl with waiting := rlClear.rl.waiting ++ [4] } } ∧
    checkRateLimit 2000 4 rlArm
      = { rlArm with rl := { rlArm.rl with
            waiting := rlArm.rl.waiting ++ [4]
            timeoutHandle := some (1000 - (2000 - rlArm.rl.checkpoint))
            timerLive := true
            checkpoint := 2000 } } ∧
    checkRateLimit 2000 4 rlWait
      = { rlWait with rl := { rlWait.rl with waiting := rlWait.rl.waiting ++ [4] } } ∧
    step Ev.timerFire rlWait = clearRateLimit rlWait ∧
    step (Ev.immediateFire 2000) rlImm
      = contAvailable 1 2000 { rlImm with immediates := [2] } :=
  ⟨claim_C6_rate_limiter.1 (initPool optsOne) 2000 4 (by decide),
   claim_C6_rate_limiter.2.1 rlBelow 2000 4 2 (by decide) (by decide),
   claim_C6_rate_limiter.2.2.1 rlClear 2000 4 2 (by decide) (by decide) (by decide),
   claim_C6_rate_limiter.2.2.2.1 rlArm 2000 4 2 (by decide) (by decide) (by decide)
     (by decide),
   claim_C6_rate_limiter.2.2.2.2.1 rlWait 2000 4 2 700 (by decide) (by decide)
     (by decide) (by decide),
   claim_C6_rate_limiter.2.2.2.2.2.2.1 rlWait (by decide),
   claim_C6_rate_limiter.2.2.2.2.2.2.2 rlImm 1 [2] 2000 (by decide)⟩

/-- C7: `close()` is idempotent — a second `close` is the identity on the
already-closed state — and once the pool is closed it stays closed and no
dispatch ever occurs: every event leaves the queue unchanged or merely
appends the fresh submission index, and a `send` still enqueues its
submission without binding it to any resource. -/
theorem claim_C7_close_idempotent_no_dispatch :
    (∀ s : PoolState, step Ev.close (step Ev.close s) = step Ev.close s) ∧
    (∀ (s : PoolState) (e : Ev), s.closed = true →
        (step e s).closed = true ∧
        ((step e s).queue = s.queue ++ [s.nextIdx] ∨ (step e s).queue = s.queue)) ∧
    (∀ (s : PoolState) (now : Int), s.closed = true →
        (step (Ev.send now) s).queue = s.queue ++ [s.nextIdx]) :=
  ⟨fun _s => closeP_idem,
   fun _s e h => ⟨step_closed_of_closed e h, step_queue_of_closed e h⟩,
   fun _s now h => step_send_queue_of_closed now h⟩

/-- C7 witness: a concrete double close, a concrete event on the closed
`c2State` keeping it closed without touching the queue, and a concrete
`send` on the closed pool that still enqueues. -/
theorem claim_C7_close_idempotent_no_dispatch_witness :
    step Ev.close (step Ev.close c1cState) = step Ev.close c1cState ∧
    c2State.closed = true ∧
    (step (Ev.connError 1) c2State).closed = true ∧
    ((step (Ev.connError 1) c2State).queue = c2State.queue ++ [c2State.nextIdx] ∨
      (step (Ev.connError 1) c2State).queue = c2State.queue) ∧
    (step (Ev.send 0) c2State).queue = c2State.queue ++ [c2State.nextIdx] :=
  ⟨claim_C7_close_idempotent_no_dispatch.1 c1cState,
   by decide,
   (claim_C7_close_idempotent_no_dispatch.2.1 c2State (Ev.connError 1) (by decide)).1,
   (claim_C7_close_idempotent_no_dispatch.2.1 c2State (Ev.connError 1) (by decide)).2,
   claim_C7_close_idempotent_no_dispatch.2.2 c2State 0 (by decide)⟩

/-- C8: the well-known service merge of the constructor is left-preserving.
When the caller's options carry a truthy `service` string that resolves to
a well-known entry, then for every key of that entry (the entry carries no
`maxConnections`/`maxMessages`): a key already present in the caller's
options keeps the caller's value in the constructed `this.options`, and a
key absent from the caller's options receives the well-known value. -/
theorem claim_C8_wellknown_merge_left_preserving :
    ∀ (wk : String → Option JObj) (st : Store) (ref : Nat) (name : String)
      (hostData : JObj) (k : String),
      objGet (storeGet st ref) "service" = some (JVal.vstr name) →
      name ≠ "" →
      wk name = some hostData →
      objHas hostData "maxConnections" = false →
      objHas hostData "maxMessages" = false →
      objHas hostData k = true →
      (∀ v, objGet (storeGet st ref) k = some v →
          objGet (storeGet (smtpPoolCtorOptions wk st (some ref)).1
            (smtpPoolCtorOptions wk st (some ref)).2) k = some v) ∧
      (objHas (storeGet st ref) k = false →
          objGet (storeGet (smtpPoolCtorOptions wk st (some ref)).1
            (smtpPoolCtorOptions wk st (some ref)).2) k = objGet hostData k) := by
  intro wk st ref name hostData k hsv hname hwk hmc hmm hk
  have hkmc : k ≠ "maxConnections" := by
    intro h
    rw [h] at hk
    rw [hk] at hmc
    exact Bool.noConfusion hmc
  have hkmm : k ≠ "maxMessages" := by
    intro h
    rw [h] at hk
    rw [hk] at hmm
    exact Bool.noConfusion hmm
  set C := storeGet st ref with hC
  set B1 := objSet C "maxConnections"
    (jsOr (objGet C "maxConnections") (JVal.vnum 5)) with hB1
  set B2 := objSet B1 "maxMessages"
    (jsOr (objGet B1 "maxMessages") (JVal.vnum 100)) with hB2
  have hsvB : objGet B2 "service" = some (JVal.vstr name) := by
    rw [hB2, objGet_objSet_ne _ _ _ _ (by decide), hB1,
      objGet_objSet_ne _ _ _ _ (by decide)]
    exact hsv
  have htr : JVal.truthy (JVal.vstr name) = true := by
    simp [JVal.truthy, hname]
  have hmain : storeGet (smtpPoolCtorOptions wk st (some ref)).1
      (smtpPoolCtorOptions wk st (some ref)).2 = mergeWellknown B2 hostData := by
    unfold smtpPoolCtorOptions cloneRef
    simp only [storeGet_append_last, storeSet_append_last]
    rw [← hC, ← hB1, ← hB2]
    rw [hsvB]
    dsimp only
    rw [if_pos htr, hwk]
    dsimp only
    simp only [storeGet_append_last, storeSet_append_last]
  have hgB2 : objGet B2 k = objGet C k := by
    rw [hB2, objGet_objSet_ne _ _ _ _ hkmm, hB1, objGet_objSet_ne _ _ _ _ hkmc]
  have hhasB2 : objHas B2 k = objHas C k := by
    rw [hB2, objHas_objSet_ne _ _ _ _ hkmm, hB1, objHas_objSet_ne _ _ _ _ hkmc]
  constructor
  · intro v hv
    rw [hmain]
    have hhas : objHas B2 k = true := by
      rw [hhasB2, objHas_eq_isSome, hv]
      rfl
    rw [mergeWellknown_present _ _ _ hhas, hgB2]
    exact hv
  · intro habs
    rw [hmain]
    have hhas : objHas B2 k = false := by
      rw [hhasB2]
      exact habs
    cases hf : objGet hostData k with
    | none =>
      rw [objHas_eq_isSome, hf] at hk
      exact Bool.noConfusion hk
    | some v0 =>
      rw [mergeWellknown_absent _ _ _ v0 hhas hf]

/-- C8 witness: with `stTest` (service `gmail`, explicit `port` 2525) and
the well-known table `wkTest`, the constructed options keep the caller's
`port` and receive the well-known `host`. -/
theorem claim_C8_wellknown_merge_left_preserving_witness :
    objGet (storeGet stTest 0) "service" = some (JVal.vstr "gmail") ∧
    wkTest "gmail" = some hdTest ∧
    objHas hdTest "port" = true ∧
    objGet (storeGet stTest 0) "port" = some (JVal.vnum 2525) ∧
    objGet (storeGet (smtpPoolCtorOptions wkTest stTest (some 0)).1
      (smtpPoolCtorOptions wkTest stTest (some 0)).2) "port"
        = some (JVal.vnum 2525) ∧
    objHas (storeGet stTest 0) "host" = false ∧
    objGet (storeGet (smtpPoolCtorOptions wkTest stTest (some 0)).1
      (smtpPoolCtorOptions wkTest stTest (some 0)).2) "host"
        = objGet hdTest "host" :=
  ⟨by decide, by decide, by decide, by decide,
   (claim_C8_wellknown_merge_left_preserving wkTest stTest 0 "gmail" hdTest "port"
     (by decide) (by decide) (by decide) (by decide) (by decide) (by decide)).1
     (JVal.vnum 2525) (by decide),
   by decide,
   (claim_C8_wellknown_merge_left_preserving wkTest stTest 0 "gmail" hdTest "host"
     (by decide) (by decide) (by decide) (by decide) (by decide) (by decide)).2
     (by decide)⟩

/-- C9: the `verify` contract, modelled from the spec (the implementation
is code of the repository that is absent from the provided sources; only
the tests exercise it): on success the callback reports `(null, true)` and
no error, on failure it reports the error and no success value, the
one-shot resource is closed on both paths, and the pool state is unchanged
on both paths. -/
theorem claim_C9_verify_contract :
    ∀ (s : PoolState),
      (verify s true).pool = s ∧ (verify s false).pool = s ∧
      (verify s true).cbOk = true ∧ (verify s true).cbErr = false ∧
      (verify s false).cbErr = true ∧ (verify s false).cbOk = false ∧
      (verify s true).resourceClosed = true ∧
      (verify s false).resourceClosed = true :=
  fun _s => ⟨rfl, rfl, rfl, rfl, rfl, rfl, rfl, rfl⟩

/-- C10: the constructor never mutates the caller's objects: `options` is
cloned before the defaults and the well-known merge are applied, so every
pre-existing reference of the store reads the same object after
construction — both when an options object is supplied and when it is
not. -/
theorem claim_C10_constructor_preserves_caller_options :
    ∀ (wk : String → Option JObj) (st : Store) (ref j : Nat), j < st.length →
      storeGet (smtpPoolCtorOptions wk st (some ref)).1 j = storeGet st j ∧
      storeGet (smtpPoolCtorOptions wk st none).1 j = storeGet st j := by
  intro wk st ref j hj
  constructor
  · unfold smtpPoolCtorOptions cloneRef
    simp only [storeGet_append_last, storeSet_append_last]
    repeat' split
    all_goals exact storeGet_append_lt st _ j hj
  · unfold smtpPoolCtorOptions allocEmpty
    simp only [storeGet_append_last, storeSet_append_last]
    repeat' split
    all_goals exact storeGet_append_lt st _ j hj

/-- C10 witness: constructing from `stTest` leaves the caller's options
object at reference 0 unchanged, with and without a supplied options
reference. -/
theorem claim_C10_constructor_preserves_caller_options_witness :
    0 < stTest.length ∧
    storeGet (smtpPoolCtorOptions wkTest stTest (some 0)).1 0 = storeGet stTest 0 ∧
    storeGet (smtpPoolCtorOptions wkTest stTest none).1 0 = storeGet stTest 0 :=
  ⟨by decide,
   (claim_C10_constructor_preserves_caller_options wkTest stTest 0 0 (by decide)).1,
   (claim_C10_constructor_preserves_caller_options wkTest stTest 0 0 (by decide)).2⟩

end SmtpPool
